import Mathlib

/-!
# Verification of the Curio FAQ module (`src/faq/index.ts`)

A shallow embedding of the FAQ widget's state-and-search engine.  DOM
elements are modelled as records of the attributes, classes and text the
source reads and writes; the document is a list of parsed items plus the
global search state, and each source function becomes a pure Lean
function over that state.

Modelling conventions (each noted again at the definition it concerns):
* Items are identified by their position in the parsed item list, which
  mirrors the reference identity of the per-item records built by
  `parseItem` (one record per item element, groups hold index lists).
* `isElementVisible` (computed style + bounding rect) is abstracted to a
  stored `visible` flag on the content element; the expand/collapse
  animation capability is modelled at its contract level — the steady
  state it eventually reaches (spec §4.2 treats it as an external
  collaborator with exactly that contract).
* Event dispatch is modelled as an append-only event log.
* `ensureId`'s randomly generated id is modelled by a fixed fresh token;
  only presence/absence of the id matters to any claim.
-/

namespace Faq

-- ---------------------------------------------------------------------------
-- String helpers (`$utils/helpers`: `normalizeText`), over `List Char`
-- ---------------------------------------------------------------------------

/-- JS `String.prototype.trim` whitespace test (the characters relevant
to this code base: space, tab, newline, carriage return). -/
def isJsWs (c : Char) : Bool :=
  c = ' ' || c = '\t' || c = '\n' || c = '\r'

/-- Remove leading and trailing whitespace (JS `trim`). -/
def trimChars (s : List Char) : List Char :=
  ((s.dropWhile isJsWs).reverse.dropWhile isJsWs).reverse

/-- Embeds `normalizeText` from `src/utils/helpers.ts`:
`text.toLowerCase().trim()`. -/
def normalizeText (s : List Char) : List Char :=
  trimChars (s.map Char.toLower)

/-- Does `pat` occur at the head of `s`? -/
def startsWithL : List Char → List Char → Bool
  | [], _ => true
  | _ :: _, [] => false
  | p :: ps, c :: cs => p = c && startsWithL ps cs

/-- Leftmost occurrence of `pat` in `s`, as an absolute position given
that `s` is the suffix of the haystack starting at position `i`
(auxiliary for `indexOfFrom`). -/
def indexOfAux (pat : List Char) : List Char → Nat → Option Nat
  | s, i =>
    if startsWithL pat s then some i
    else
      match s with
      | [] => none
      | _ :: t => indexOfAux pat t (i + 1)

/-- JS `hay.indexOf(pat, start)` (as an `Option` instead of `-1`). -/
def indexOfFrom (hay pat : List Char) (start : Nat) : Option Nat :=
  indexOfAux pat (hay.drop start) start

/-- JS `String.prototype.includes`. -/
def containsSub (hay pat : List Char) : Bool :=
  (indexOfFrom hay pat 0).isSome

/-- JS `s.slice(a, b)`. -/
def sliceChars (s : List Char) (a b : Nat) : List Char :=
  (s.drop a).take (b - a)

-- ---------------------------------------------------------------------------
-- Highlight run splitting (the per-text-node loop of `highlightText`)
-- ---------------------------------------------------------------------------

/-- A run produced when a text node is replaced: either a plain text
node or a `<mark class={highlightClass}>` element wrapping the run. -/
inductive Run where
  | plain (s : List Char)
  | marked (s : List Char)
deriving DecidableEq

/-- The `for (;;)` loop of `highlightText`, which splits one text node
into runs.  `original` is the node's text, `lower` is
`normalizeText(original)` (the source searches in this lowercased AND
trimmed string while slicing `original`), `normalised` the normalised
query, `pos` the scan position.  The fuel argument only serves Lean's
termination checker: with a non-empty pattern the loop advances `pos` by
at least one per iteration, so `lower.length + 1` iterations always
suffice (the source would loop forever on an empty pattern; its callers
guard against that). -/
def runsLoop (original lower normalised : List Char) : Nat → Nat → List Run
  | _, 0 => []
  | pos, fuel + 1 =>
    match indexOfFrom lower normalised pos with
    | none => [Run.plain (original.drop pos)]
    | some idx =>
      (if pos < idx then [Run.plain (sliceChars original pos idx)] else []) ++
        Run.marked (sliceChars original idx (idx + normalised.length)) ::
          runsLoop original lower normalised (idx + normalised.length) fuel

/-- Split one text node's text into alternating plain/marked runs, as
`highlightText` does for each accepted text node. -/
def highlightRuns (original normalised : List Char) : List Run :=
  let lower := normalizeText original
  runsLoop original lower normalised 0 (lower.length + 1)

/-- Number of `<mark>` elements the node replacement produces. -/
def countMarks (original normalised : List Char) : Nat :=
  (highlightRuns original normalised).countP (fun r =>
    match r with
    | Run.marked _ => true
    | Run.plain _ => false)

-- ---------------------------------------------------------------------------
-- Data model: element states
-- ---------------------------------------------------------------------------

/-- Provenance of a state change (`source: 'user' | 'search'`). -/
inductive Src where
  | user
  | search
deriving DecidableEq

/-- Dispatched custom events (`cur-faq:open`, `cur-faq:close`,
`cur-faq:search`), each carrying its `bubbles` flag.  Open/close events
carry the item (by index); the search event carries its target group
element, the raw query and the match count. -/
inductive Ev where
  | openEv (item : Nat) (bubbles : Bool)
  | closeEv (item : Nat) (bubbles : Bool)
  | searchEv (target : Nat) (query : String) (matchCount : Nat) (bubbles : Bool)
deriving DecidableEq

/-- An icon element: membership of the two visibility classes
`cur-faq-icon-visible` / `cur-faq-icon-hidden`. -/
structure IconSt where
  visCls : Bool
  hidCls : Bool
deriving DecidableEq

/-- A trigger element: tag name plus the attributes the module touches. -/
structure TriggerSt where
  tag : String
  ariaExpanded : Option String
  ariaControls : Option String
  role : Option String
  tabindex : Option String
deriving DecidableEq

/-- A title element: its text (modelled as a single text node) and the
number of highlight `<mark>` elements currently inside it. -/
structure TitleSt where
  text : String
  marks : Nat
deriving DecidableEq

/-- A content element.  `visible` abstracts `isElementVisible` (computed
style and bounding rect); the animation capability updates it together
with `hidden` to the steady state the transition eventually reaches. -/
structure ContentSt where
  hidden : Bool
  visible : Bool
  styleHeight : String
  id : Option String
  text : String
  marks : Nat
deriving DecidableEq

/-- One parsed FAQ item (`FaqItemElements`): the item element's own
attributes/classes plus its optional sub-elements. -/
structure ItemSt where
  dataOpen : Option String
  dataOpenedBySearch : Option String
  activeCls : Bool
  trigger : Option TriggerSt
  title : Option TitleSt
  content : Option ContentSt
  iconOpen : Option IconSt
  iconClose : Option IconSt
deriving DecidableEq

/-- A highlight `<mark>` element: the item it sits in and whether it
carries the current-highlight class. -/
structure MarkSt where
  owner : Nat
  current : Bool
deriving DecidableEq

/-- A parsed group (`FaqGroup`): member items by index plus the resolved
per-group config the claims use. -/
structure Grp where
  memberIds : List Nat
  accordion : Bool
  defaultOpen : Option Int
deriving DecidableEq

/-- The whole observable state: parsed items, search state
(`SearchState`), the empty-state element's display (if the element
exists), the floating counter's text (if that element exists), the first
group element found in the document (if any), the injected style
element, the global init flag and instance reference, and the event
log. -/
structure St where
  items : List ItemSt
  marks : List MarkSt
  currentIndex : Int
  searchOpened : List Nat
  emptyDisplay : Option String
  counter : Option String
  firstGroup : Option Nat
  styleEl : Bool
  flagInit : Bool
  instOwned : Bool
  events : List Ev
deriving DecidableEq

-- ---------------------------------------------------------------------------
-- Small list/set helpers (element identity = list position; the
-- search-opened set holds item indices)
-- ---------------------------------------------------------------------------

/-- Apply `f` to the element at position `i` (no-op when out of range). -/
def updateAt {α : Type} (l : List α) (i : Nat) (f : α → α) : List α :=
  match l, i with
  | [], _ => []
  | a :: t, 0 => f a :: t
  | a :: t, n + 1 => a :: updateAt t n f

/-- Embeds `Set.prototype.add` on the search-opened set. -/
def addId (l : List Nat) (i : Nat) : List Nat :=
  if i ∈ l then l else i :: l

/-- Embeds `Set.prototype.delete` on the search-opened set. -/
def removeId (l : List Nat) (i : Nat) : List Nat :=
  l.filter (fun j => j ≠ i)

theorem updateAt_length {α : Type} (l : List α) (i : Nat) (f : α → α) :
    (updateAt l i f).length = l.length := by
  induction l generalizing i with
  | nil => rfl
  | cons a t ih =>
    cases i with
    | zero => rfl
    | succ n => simp [updateAt, ih]

theorem updateAt_get_self {α : Type} (l : List α) (i : Nat) (f : α → α) :
    (updateAt l i f).get? i = (l.get? i).map f := by
  induction l generalizing i with
  | nil => rfl
  | cons a t ih =>
    cases i with
    | zero => rfl
    | succ n => simpa [updateAt] using ih n

theorem updateAt_get_ne {α : Type} (l : List α) (i j : Nat) (f : α → α)
    (h : j ≠ i) : (updateAt l i f).get? j = l.get? j := by
  induction l generalizing i j with
  | nil => rfl
  | cons a t ih =>
    cases i with
    | zero =>
      cases j with
      | zero => exact absurd rfl h
      | succ m => rfl
    | succ n =>
      cases j with
      | zero => rfl
      | succ m =>
        simpa [updateAt] using ih n m (fun hc => h (by rw [hc]))

theorem mem_addId_self (l : List Nat) (i : Nat) : i ∈ addId l i := by
  unfold addId
  by_cases h : i ∈ l <;> simp [h]

theorem mem_addId_ne (l : List Nat) (i j : Nat) (h : j ≠ i) :
    (j ∈ addId l i) ↔ j ∈ l := by
  unfold addId
  by_cases hm : i ∈ l <;> simp [hm, h]

theorem not_mem_removeId_self (l : List Nat) (i : Nat) : i ∉ removeId l i := by
  unfold removeId
  simp

theorem mem_removeId_ne (l : List Nat) (i j : Nat) (h : j ≠ i) :
    (j ∈ removeId l i) ↔ j ∈ l := by
  unfold removeId
  simp [h]

-- ---------------------------------------------------------------------------
-- Visibility helpers and `isItemOpen`
-- ---------------------------------------------------------------------------

/-- Embeds `String(open)` in JS. -/
def boolStr (b : Bool) : String :=
  if b then "true" else "false"

/-- Embeds `isElementVisible`: the computed-style/bounding-rect check, read off
the abstract rendering flag. -/
def isElementVisible (c : ContentSt) : Bool :=
  c.visible

/-- The body of `isItemOpen` on one item record: open marker, then ARIA
flag, then the visibility fallback on the content element. -/
def isItemOpenIt (it : ItemSt) : Bool :=
  if it.dataOpen = some "true" ||
      (it.trigger.map TriggerSt.ariaExpanded).join = some "true" then
    true
  else
    match it.content with
    | some c => isElementVisible c && !c.hidden
    | none => false

/-- Embeds `isItemOpen`, looking the item up by its index. -/
def isItemOpen (st : St) (i : Nat) : Bool :=
  match st.items.get? i with
  | none => false
  | some it => isItemOpenIt it

/-- Embeds `setIconVisibility`: `classList.toggle(cls, force)` on both icon
visibility classes (no-op when the icon element is missing). -/
def setIconVisibility (icon : Option IconSt) (visible : Bool) : Option IconSt :=
  icon.map (fun _ => { visCls := visible, hidCls := !visible })

/-- Embeds `expandElement`, at the steady state its transition reaches:
`hidden` removed immediately, the element rendered visible, height
settling at `auto`. -/
def expandElement (c : ContentSt) : ContentSt :=
  { c with hidden := false, visible := true, styleHeight := "auto" }

/-- Embeds `collapseElement`, at the steady state its transition reaches: an
already-hidden element only gets its height cleared; otherwise `hidden`
is set, the height cleared, and the element is no longer rendered. -/
def collapseElement (c : ContentSt) : ContentSt :=
  if c.hidden then
    { c with styleHeight := "" }
  else
    { c with styleHeight := "", hidden := true, visible := false }

-- ---------------------------------------------------------------------------
-- Core toggle: `setItemState`
-- ---------------------------------------------------------------------------

/-- The per-item part of the `setItemState` mutation block: ARIA flag,
open marker, active class, icons, expand/collapse, and the
opened-by-search marker. -/
def mutateItem (it : ItemSt) (op : Bool) (src : Src) : ItemSt :=
  { it with
    trigger := it.trigger.map (fun tr => { tr with ariaExpanded := some (boolStr op) })
    dataOpen := some (boolStr op)
    activeCls := op
    iconOpen := setIconVisibility it.iconOpen op
    iconClose := setIconVisibility it.iconClose (!op)
    content := it.content.map (fun c => if op then expandElement c else collapseElement c)
    dataOpenedBySearch :=
      if op then
        match src with
        | Src.search => some "true"
        | Src.user => none
      else
        match src with
        | Src.search => none
        | Src.user => it.dataOpenedBySearch }

/-- The mutation block of `setItemState` after the accordion branch:
attribute/class/icon/animation mutations on the item, provenance
bookkeeping on the search-opened set, and the open/close event. -/
def itemMutations (st : St) (i : Nat) (op : Bool) (src : Src) : St :=
  let items := updateAt st.items i (fun it => mutateItem it op src)
  let searchOpened :=
    if op then
      match src with
      | Src.search => addId st.searchOpened i
      | Src.user => removeId st.searchOpened i
    else
      match src with
      | Src.search => removeId st.searchOpened i
      | Src.user => st.searchOpened
  { st with
    items := items
    searchOpened := searchOpened
    events := st.events ++ [if op then Ev.openEv i true else Ev.closeEv i true] }

/-- Embeds `setItemState` as invoked with no group context (the form used for
forced sibling closures and by the search orchestrator): guard on the
content/trigger sub-elements, then the mutation block. -/
def setItemStatePlain (st : St) (i : Nat) (op : Bool) (src : Src) : St :=
  match st.items.get? i with
  | none => st
  | some it =>
    if it.content.isNone || it.trigger.isNone then st
    else itemMutations st i op src

/-- The accordion branch: close every *other* currently-open item of the
group, passing no group context (so no further cascade). -/
def closeSiblings (st : St) (i : Nat) (src : Src) (l : List Nat) : St :=
  l.foldl (fun s j => if j ≠ i && isItemOpen s j then setItemStatePlain s j false src else s) st

/-- Embeds `setItemState` with an optional group context. -/
def setItemState (st : St) (i : Nat) (op : Bool) (src : Src) (grp : Option Grp) : St :=
  match st.items.get? i with
  | none => st
  | some it =>
    if it.content.isNone || it.trigger.isNone then st
    else
      let st1 :=
        match grp with
        | some g => if op && g.accordion then closeSiblings st i src g.memberIds else st
        | none => st
      itemMutations st1 i op src

/-- Embeds `groups.find((g) => g.items.includes(item))`. -/
def findGroup (grps : List Grp) (i : Nat) : Option Grp :=
  grps.find? (fun g => g.memberIds.contains i)

/-- The instance's `toggle` method. -/
def toggle (st : St) (grps : List Grp) (i : Nat) : St :=
  let shouldOpen := !isItemOpen st i
  setItemState st i shouldOpen Src.user (findGroup grps i)

-- ---------------------------------------------------------------------------
-- Search helpers
-- ---------------------------------------------------------------------------

/-- Embeds `elementContainsText`: `false` for a missing element, otherwise a
normalised-substring check on its text content. -/
def elementContainsText (text : Option String) (query : List Char) : Bool :=
  match text with
  | some s => containsSub (normalizeText s.data) query
  | none => false

/-- Embeds `itemMatchesQuery`: title or content matches. -/
def itemMatchesQuery (it : ItemSt) (query : List Char) : Bool :=
  elementContainsText (it.title.map TitleSt.text) query ||
    elementContainsText (it.content.map ContentSt.text) query

-- ---------------------------------------------------------------------------
-- Highlighting and clearing
-- ---------------------------------------------------------------------------

/-- Embeds `clearHighlights` applied to one item element: every `<mark>`
wrapper under it is replaced by its text and adjacent text nodes are
merged, so each sub-element is again a single text node with its text
unchanged and zero marks. -/
def clearHighlightsItem (it : ItemSt) : ItemSt :=
  { it with
    title := it.title.map (fun t => { t with marks := 0 })
    content := it.content.map (fun c => { c with marks := 0 }) }

/-- Embeds `clearAllHighlights`: per-item clearing, removal of every
current-highlight class (all marks disappear with their wrappers), and
reset of the match list and cursor. -/
def clearAllHighlights (st : St) : St :=
  { st with
    items := st.items.map clearHighlightsItem
    marks := []
    currentIndex := -1 }

/-- Embeds `highlightText` applied to one sub-element, modelled with the
element's content as a single text node: nothing happens for an empty
query or a non-matching node; an accepted node is split into runs,
adding one `<mark>` per matched run. -/
def highlightElem (text : String) (marks : Nat) (query : List Char) : Nat :=
  if query = [] then marks
  else if containsSub (normalizeText text.data) query then
    marks + countMarks text.data query
  else marks

/-- The two `highlightText` calls of the match loop, on an item's title
and content elements. -/
def highlightItem (it : ItemSt) (query : List Char) : ItemSt :=
  { it with
    title := it.title.map (fun t => { t with marks := highlightElem t.text t.marks query })
    content := it.content.map (fun c => { c with marks := highlightElem c.text c.marks query }) }

-- ---------------------------------------------------------------------------
-- Search: counter, navigation, empty state
-- ---------------------------------------------------------------------------

/-- Embeds `updateMatchCounter`: no-op without a counter element, otherwise
write `"current/total"` with the 1-based current index (0 when unset or
no matches). -/
def updateMatchCounter (st : St) : St :=
  match st.counter with
  | none => st
  | some _ =>
    let total : Int := st.marks.length
    let current : Int :=
      if total = 0 || st.currentIndex = -1 then 0 else st.currentIndex + 1
    { st with counter := some s!"{current}/{total}" }

/-- Embeds `navigateToMatch`: clamp the index onto the ring, move the
current-highlight class (removed from every element carrying it, added
to the new current mark), and refresh the counter.  The scroll to the
mark is an external effect with no observable state.  `Int.tmod` is the
JS `%` (truncated) remainder. -/
def navigateToMatch (st : St) (index : Int) : St :=
  if st.marks.length = 0 then
    updateMatchCounter { st with currentIndex := -1 }
  else
    let len : Int := st.marks.length
    let ni := ((index.tmod len) + len).tmod len
    let cleared := st.marks.map (fun m => { m with current := false })
    let marks := updateAt cleared ni.toNat (fun m => { m with current := true })
    updateMatchCounter { st with currentIndex := ni, marks := marks }

/-- Embeds `advanceMatch`: no-op without matches; otherwise advance from the
cursor (treated as 0 when unset) by `delta`. -/
def advanceMatch (st : St) (delta : Int) : St :=
  if st.marks.length = 0 then st
  else
    let base := if st.currentIndex = -1 then 0 else st.currentIndex
    navigateToMatch st (base + delta)

/-- Embeds `updateEmptyState`: nothing without an empty-state element,
otherwise hide it iff there are matches. -/
def updateEmptyState (st : St) (hasMatches : Bool) : St :=
  { st with emptyDisplay := st.emptyDisplay.map (fun _ => if hasMatches then "none" else "") }

-- ---------------------------------------------------------------------------
-- Search: core (`performSearch`)
-- ---------------------------------------------------------------------------

/-- First `performSearch` loop: close items that were opened by search
but no longer match (no group context is passed). -/
def closeStale (st : St) (query : List Char) : St :=
  (List.range st.items.length).foldl
    (fun s i =>
      match s.items.get? i with
      | none => s
      | some it =>
        if i ∈ s.searchOpened && !itemMatchesQuery it query && isItemOpen s i then
          setItemStatePlain s i false Src.search
        else s)
    st

/-- Second `performSearch` loop: highlight and open every matching item
(title and content both highlighted whenever either matches; no group
context is passed). -/
def openMatching (st : St) (query : List Char) : St :=
  (List.range st.items.length).foldl
    (fun s i =>
      match s.items.get? i with
      | none => s
      | some it =>
        let titleMatch := elementContainsText (it.title.map TitleSt.text) query
        let contentMatch := elementContainsText (it.content.map ContentSt.text) query
        if titleMatch || contentMatch then
          setItemStatePlain { s with items := updateAt s.items i (fun x => highlightItem x query) }
            i true Src.search
        else s)
    st

/-- Embeds `document.querySelectorAll("mark.highlightClass")` in document
order: for each item in order, its title marks then its content marks
(the title element precedes the content element inside an item). -/
def collectMarks (items : List ItemSt) : List MarkSt :=
  (items.enum).flatMap (fun p =>
    List.replicate
      ((p.2.title.map TitleSt.marks).getD 0 + (p.2.content.map ContentSt.marks).getD 0)
      { owner := p.1, current := false })

/-- The final dispatch of `performSearch`: a bubbling `cur-faq:search`
event from the first group element found in the document, when one
exists. -/
def dispatchSearch (st : St) (query : String) : St :=
  match st.firstGroup with
  | some g =>
    { st with events := st.events ++ [Ev.searchEv g query st.marks.length true] }
  | none => st

/-- Embeds `performSearch`. -/
def performSearch (st : St) (query : String) : St :=
  let normalised := normalizeText query.data
  let st := clearAllHighlights st
  if normalised = [] then
    updateEmptyState st true
  else
    let st := closeStale st normalised
    let st := openMatching st normalised
    let st := { st with marks := collectMarks st.items }
    let hasMatches := st.marks.length > 0
    let st := updateEmptyState st hasMatches
    let st := if hasMatches then navigateToMatch { st with currentIndex := 0 } 0 else st
    dispatchSearch st query

-- ---------------------------------------------------------------------------
-- Accessibility setup (`setupAria`, via `bindAccordionListeners`)
-- ---------------------------------------------------------------------------

/-- Embeds `ensureId` on the content element: keep an existing id, otherwise
assign a generated one (the random suffix is modelled by a fixed fresh
token; only presence matters). -/
def ensureId (c : ContentSt) : String × ContentSt :=
  match c.id with
  | some id => (id, c)
  | none => ("cur-faq-genid", { c with id := some "cur-faq-genid" })

/-- Embeds `setupAria` for one item, as invoked from `bindAccordionListeners`
(which skips items without a trigger; `setupAria` itself also requires
the content element): link `aria-controls` to the content id and give
non-`<button>` triggers `role="button"` and a `tabindex` when absent. -/
def setupAriaItem (it : ItemSt) : ItemSt :=
  match it.trigger, it.content with
  | some tr, some c =>
    let idc := ensureId c
    let tr := { tr with ariaControls := some idc.1 }
    let tr :=
      if tr.tag ≠ "BUTTON" then
        { tr with
          role := some "button"
          tabindex := if tr.tabindex.isNone then some "0" else tr.tabindex }
      else tr
    { it with trigger := some tr, content := some idc.2 }
  | _, _ => it

-- ---------------------------------------------------------------------------
-- Lifecycle: `initFaq` and `destroy`
-- ---------------------------------------------------------------------------

/-- The initial-state pass of `initFaq`: every item with a content
element is closed (content hidden, open marker `"false"`, ARIA collapsed
when a trigger exists, active class removed, icon-close visible,
icon-open hidden). -/
def initClosed (it : ItemSt) : ItemSt :=
  if it.content.isSome then
    { it with
      content := it.content.map (fun c => { c with hidden := true })
      dataOpen := some "false"
      trigger := it.trigger.map (fun tr => { tr with ariaExpanded := some "false" })
      activeCls := false
      iconOpen := setIconVisibility it.iconOpen false
      iconClose := setIconVisibility it.iconClose true }
  else it

/-- Embeds `group.items[group.config.defaultOpen]`: the target of a group's
`default-open` setting, when the index is in range (a negative or
out-of-range index yields `undefined`). -/
def defaultTarget (g : Grp) : Option Nat :=
  match g.defaultOpen with
  | some k => if k < 0 then none else g.memberIds.get? k.toNat
  | none => none

/-- The default-open pass of `initFaq`: for each group with a
`default-open` index, open the item at that index (when it exists) with
user provenance and the group as context. -/
def applyDefaultOpen (st : St) (groups : List Grp) : St :=
  groups.foldl
    (fun s g =>
      match defaultTarget g with
      | some t => setItemState s t true Src.user (some g)
      | none => s)
    st

/-- Embeds `initFaq`.  The idempotent-init guard returns unchanged when the
global flag is already set.  Style injection is modelled by the style
flag; listener wiring, the debounce and the floating panel are external
event plumbing with no observable state here beyond the counter element
already present in `St`. -/
def initFaq (groups : List Grp) (st : St) : St :=
  if st.flagInit then st
  else
    let st := { st with flagInit := true }
    let st := { st with styleEl := true }
    let st := { st with items := st.items.map initClosed }
    let st := applyDefaultOpen st groups
    let st := { st with items := st.items.map setupAriaItem }
    let st := updateEmptyState st true
    { st with instOwned := true }

/-- The per-item reset block of `destroy`. -/
def destroyResetItem (it : ItemSt) : ItemSt :=
  { it with
    dataOpen := none
    dataOpenedBySearch := none
    activeCls := false
    trigger := it.trigger.map (fun tr => { tr with ariaExpanded := none, ariaControls := none })
    content := it.content.map (fun c => { c with hidden := false, styleHeight := "" }) }

/-- Embeds `destroy`: listener removal is external; the injected style element
is removed, highlights and search state cleared, every runtime attribute
reset, and the global flag and instance reference cleared. -/
def destroy (st : St) : St :=
  let st := { st with styleEl := false }
  let st := clearAllHighlights st
  let st := { st with items := st.items.map destroyResetItem }
  { st with flagInit := false, instOwned := false }

-- ---------------------------------------------------------------------------
-- Observation accessors (read the DOM state of item `i`)
-- ---------------------------------------------------------------------------

/-- The item element's `data-faq-open` attribute. -/
def itemOpenMarker (st : St) (i : Nat) : Option String :=
  match st.items.get? i with
  | some it => it.dataOpen
  | none => none

/-- The item element's `data-opened-by-search` attribute. -/
def itemSearchMarker (st : St) (i : Nat) : Option String :=
  match st.items.get? i with
  | some it => it.dataOpenedBySearch
  | none => none

/-- Membership of the configured active class on the item element. -/
def activeClsOf (st : St) (i : Nat) : Option Bool :=
  match st.items.get? i with
  | some it => some it.activeCls
  | none => none

/-- The trigger's `aria-expanded` attribute. -/
def ariaExpandedOf (st : St) (i : Nat) : Option String :=
  match st.items.get? i with
  | some it => (it.trigger.map TriggerSt.ariaExpanded).join
  | none => none

/-- The trigger's `aria-controls` attribute. -/
def ariaControlsOf (st : St) (i : Nat) : Option String :=
  match st.items.get? i with
  | some it => (it.trigger.map TriggerSt.ariaControls).join
  | none => none

/-- The trigger's `role` attribute. -/
def roleOf (st : St) (i : Nat) : Option String :=
  match st.items.get? i with
  | some it => (it.trigger.map TriggerSt.role).join
  | none => none

/-- Whether the content element carries the `hidden` attribute. -/
def contentHiddenOf (st : St) (i : Nat) : Option Bool :=
  match st.items.get? i with
  | some it => it.content.map ContentSt.hidden
  | none => none

/-- The icon-open element's visibility classes `(visible, hidden)`. -/
def iconOpenClsOf (st : St) (i : Nat) : Option (Bool × Bool) :=
  match st.items.get? i with
  | some it => it.iconOpen.map (fun ic => (ic.visCls, ic.hidCls))
  | none => none

/-- The icon-close element's visibility classes `(visible, hidden)`. -/
def iconCloseClsOf (st : St) (i : Nat) : Option (Bool × Bool) :=
  match st.items.get? i with
  | some it => it.iconClose.map (fun ic => (ic.visCls, ic.hidCls))
  | none => none

/-- Number of highlight marks inside item `i` (title plus content). -/
def itemMarkCount (st : St) (i : Nat) : Nat :=
  match st.items.get? i with
  | some it => (it.title.map TitleSt.marks).getD 0 + (it.content.map ContentSt.marks).getD 0
  | none => 0

/-- Does item `i` exist with both its content and trigger sub-elements
present (the guard of `setItemState`)? -/
def wfItem (st : St) (i : Nat) : Bool :=
  match st.items.get? i with
  | some it => it.content.isSome && it.trigger.isSome
  | none => false

/-- Search events only (for reasoning about the event log). -/
def isSearchEv : Ev → Bool
  | Ev.searchEv _ _ _ _ => true
  | _ => false

/-- The search events dispatched so far, in order. -/
def searchEvs (st : St) : List Ev :=
  st.events.filter isSearchEv

-- ---------------------------------------------------------------------------
-- Basic lemmas about the state machine
-- ---------------------------------------------------------------------------

theorem setItemStatePlain_not_wf (st : St) (i : Nat) (op : Bool) (src : Src)
    (h : wfItem st i = false) : setItemStatePlain st i op src = st := by
  unfold setItemStatePlain
  unfold wfItem at h
  cases hg : st.items.get? i with
  | none => simp [hg]
  | some it =>
    rw [hg] at h
    simp only [hg]
    have : (it.content.isNone || it.trigger.isNone) = true := by
      cases hc : it.content <;> cases ht : it.trigger <;>
        simp [hc, ht] at h ⊢
    simp [this]

theorem setItemStatePlain_wf (st : St) (i : Nat) (op : Bool) (src : Src)
    (h : wfItem st i = true) : setItemStatePlain st i op src = itemMutations st i op src := by
  unfold setItemStatePlain
  unfold wfItem at h
  cases hg : st.items.get? i with
  | none => rw [hg] at h; exact absurd h (by simp)
  | some it =>
    rw [hg] at h
    simp only [hg]
    have : (it.content.isNone || it.trigger.isNone) = false := by
      cases hc : it.content <;> cases ht : it.trigger <;>
        simp [hc, ht] at h ⊢
    simp [this]

theorem setItemState_not_wf (st : St) (i : Nat) (op : Bool) (src : Src) (grp : Option Grp)
    (h : wfItem st i = false) : setItemState st i op src grp = st := by
  unfold setItemState
  unfold wfItem at h
  cases hg : st.items.get? i with
  | none => simp [hg]
  | some it =>
    rw [hg] at h
    simp only [hg]
    have : (it.content.isNone || it.trigger.isNone) = true := by
      cases hc : it.content <;> cases ht : it.trigger <;>
        simp [hc, ht] at h ⊢
    simp [this]

theorem setItemState_wf_none (st : St) (i : Nat) (op : Bool) (src : Src)
    (h : wfItem st i = true) : setItemState st i op src none = itemMutations st i op src := by
  unfold setItemState
  unfold wfItem at h
  cases hg : st.items.get? i with
  | none => rw [hg] at h; exact absurd h (by simp)
  | some it =>
    rw [hg] at h
    simp only [hg]
    have : (it.content.isNone || it.trigger.isNone) = false := by
      cases hc : it.content <;> cases ht : it.trigger <;>
        simp [hc, ht] at h ⊢
    simp [this]

theorem setItemState_wf_some (st : St) (i : Nat) (op : Bool) (src : Src) (g : Grp)
    (h : wfItem st i = true) :
    setItemState st i op src (some g) =
      itemMutations (if op && g.accordion then closeSiblings st i src g.memberIds else st)
        i op src := by
  unfold setItemState
  unfold wfItem at h
  cases hg : st.items.get? i with
  | none => rw [hg] at h; exact absurd h (by simp)
  | some it =>
    rw [hg] at h
    simp only [hg]
    have : (it.content.isNone || it.trigger.isNone) = false := by
      cases hc : it.content <;> cases ht : it.trigger <;>
        simp [hc, ht] at h ⊢
    simp [this]

theorem itemMutations_get_ne (st : St) (i j : Nat) (op : Bool) (src : Src)
    (h : j ≠ i) : (itemMutations st i op src).items.get? j = st.items.get? j := by
  unfold itemMutations
  exact updateAt_get_ne st.items i j _ h

theorem itemMutations_get_self (st : St) (i : Nat) (op : Bool) (src : Src) :
    (itemMutations st i op src).items.get? i =
      (st.items.get? i).map (fun it => mutateItem it op src) := by
  unfold itemMutations
  exact updateAt_get_self st.items i _

theorem setItemStatePlain_get_ne (st : St) (i j : Nat) (op : Bool) (src : Src)
    (h : j ≠ i) : (setItemStatePlain st i op src).items.get? j = st.items.get? j := by
  cases hw : wfItem st i with
  | false => rw [setItemStatePlain_not_wf st i op src hw]
  | true => rw [setItemStatePlain_wf st i op src hw]; exact itemMutations_get_ne st i j op src h

theorem wfItem_itemMutations (st : St) (i k : Nat) (op : Bool) (src : Src) :
    wfItem (itemMutations st i op src) k = wfItem st k := by
  unfold wfItem
  by_cases h : k = i
  · subst h
    rw [itemMutations_get_self]
    cases hg : st.items.get? k with
    | none => simp
    | some it => simp [mutateItem]
  · rw [itemMutations_get_ne st i k op src h]

theorem wfItem_setItemStatePlain (st : St) (i k : Nat) (op : Bool) (src : Src) :
    wfItem (setItemStatePlain st i op src) k = wfItem st k := by
  cases hw : wfItem st i with
  | false => rw [setItemStatePlain_not_wf st i op src hw]
  | true => rw [setItemStatePlain_wf st i op src hw]; exact wfItem_itemMutations st i k op src

theorem mutateItem_dataOpen (it : ItemSt) (op : Bool) (src : Src) :
    (mutateItem it op src).dataOpen = some (boolStr op) := rfl

theorem mutateItem_activeCls (it : ItemSt) (op : Bool) (src : Src) :
    (mutateItem it op src).activeCls = op := rfl

theorem mutateItem_wf (it : ItemSt) (op : Bool) (src : Src) :
    (mutateItem it op src).content.isSome = it.content.isSome ∧
      (mutateItem it op src).trigger.isSome = it.trigger.isSome := by
  cases hc : it.content <;> cases ht : it.trigger <;> simp [mutateItem, hc, ht]

/-- After the mutation block, the item reads as open exactly when it was
set open: opening writes `"true"` into the open marker; closing writes
`"false"` and `"false"` into ARIA, and the collapsed steady state is not
rendered visible. -/
theorem isItemOpenIt_mutateItem (it : ItemSt) (op : Bool) (src : Src) :
    isItemOpenIt (mutateItem it op src) = op := by
  obtain ⟨o, obs, ac, tr, ti, co, io, ic⟩ := it
  cases op with
  | true =>
    simp [isItemOpenIt, mutateItem, boolStr]
  | false =>
    cases tr with
    | none =>
      cases co with
      | none => simp [isItemOpenIt, mutateItem, boolStr]
      | some c =>
        by_cases hh : c.hidden <;>
          simp [isItemOpenIt, mutateItem, boolStr, collapseElement, isElementVisible, hh]
    | some tr =>
      cases co with
      | none => simp [isItemOpenIt, mutateItem, boolStr]
      | some c =>
        by_cases hh : c.hidden <;>
          simp [isItemOpenIt, mutateItem, boolStr, collapseElement, isElementVisible, hh]

theorem itemMutations_searchOpened_mem_ne (st : St) (i j : Nat) (op : Bool) (src : Src)
    (h : i ≠ j) :
    (i ∈ (itemMutations st j op src).searchOpened) ↔ i ∈ st.searchOpened := by
  unfold itemMutations
  cases op <;> cases src <;>
    simp only [] <;>
    first
      | exact mem_removeId_ne st.searchOpened j i h
      | exact mem_addId_ne st.searchOpened j i h
      | exact Iff.rfl

theorem setItemStatePlain_searchOpened_mem_ne (st : St) (i j : Nat) (op : Bool) (src : Src)
    (h : i ≠ j) :
    (i ∈ (setItemStatePlain st j op src).searchOpened) ↔ i ∈ st.searchOpened := by
  cases hw : wfItem st j with
  | false => rw [setItemStatePlain_not_wf st j op src hw]
  | true =>
    rw [setItemStatePlain_wf st j op src hw]
    exact itemMutations_searchOpened_mem_ne st i j op src h

theorem closeSiblings_nil (st : St) (i : Nat) (src : Src) :
    closeSiblings st i src [] = st := rfl

theorem closeSiblings_cons (st : St) (i : Nat) (src : Src) (a : Nat) (l : List Nat) :
    closeSiblings st i src (a :: l) =
      closeSiblings
        (if a ≠ i && isItemOpen st a then setItemStatePlain st a false src else st)
        i src l := rfl

/-- The accordion loop never touches the item being opened. -/
theorem closeSiblings_get_self (l : List Nat) (st : St) (i : Nat) (src : Src) :
    (closeSiblings st i src l).items.get? i = st.items.get? i := by
  induction l generalizing st with
  | nil => rfl
  | cons a l ih =>
    rw [closeSiblings_cons]
    by_cases ha : a ≠ i && isItemOpen st a
    · rw [if_pos ha, ih]
      have hne : i ≠ a := by
        simp only [Bool.and_eq_true, ne_eq, decide_eq_true_eq] at ha
        exact fun hc => ha.1 hc.symm
      exact setItemStatePlain_get_ne st a i false src hne
    · rw [if_neg ha, ih]

/-- The accordion loop only touches its member items. -/
theorem closeSiblings_get_not_mem (l : List Nat) (st : St) (i k : Nat) (src : Src)
    (h : k ∉ l) : (closeSiblings st i src l).items.get? k = st.items.get? k := by
  induction l generalizing st with
  | nil => rfl
  | cons a l ih =>
    have hka : k ≠ a := fun hc => h (by simp [hc])
    have hkl : k ∉ l := fun hc => h (by simp [hc])
    rw [closeSiblings_cons]
    by_cases ha : a ≠ i && isItemOpen st a
    · rw [if_pos ha, ih _ hkl, setItemStatePlain_get_ne st a k false src hka]
    · rw [if_neg ha, ih _ hkl]

/-- An item that reads as closed is left untouched by the accordion
loop. -/
theorem closeSiblings_pres_closed (l : List Nat) (st : St) (i k : Nat) (src : Src)
    (itk : ItemSt) (hget : st.items.get? k = some itk) (hcl : isItemOpenIt itk = false) :
    (closeSiblings st i src l).items.get? k = some itk := by
  induction l generalizing st with
  | nil => exact hget
  | cons a l ih
  =>
    rw [closeSiblings_cons]
    by_cases hak : a = k
    · subst hak
      have : isItemOpen st a = false := by
        unfold isItemOpen
        rw [hget]
        exact hcl
      rw [this]
      simp only [Bool.and_false, if_neg (by simp : ¬(false = true))]
      exact ih st hget
    · by_cases ha : a ≠ i && isItemOpen st a
      · rw [if_pos ha]
        have hget' : (setItemStatePlain st a false src).items.get? k = some itk := by
          rw [setItemStatePlain_get_ne st a k false src (fun hc => hak hc.symm)]
          exact hget
        exact ih _ hget'
      · rw [if_neg ha]
        exact ih st hget

/-- wfItem is invariant under the accordion loop. -/
theorem closeSiblings_wf (l : List Nat) (st : St) (i k : Nat) (src : Src) :
    wfItem (closeSiblings st i src l) k = wfItem st k := by
  induction l generalizing st with
  | nil => rfl
  | cons a l ih =>
    rw [closeSiblings_cons]
    by_cases ha : a ≠ i && isItemOpen st a
    · rw [if_pos ha, ih, wfItem_setItemStatePlain]
    · rw [if_neg ha, ih]

/-- Membership of the opened item in the search-opened set is invariant
under the accordion loop. -/
theorem closeSiblings_searchOpened_mem (l : List Nat) (st : St) (i : Nat) (src : Src) :
    (i ∈ (closeSiblings st i src l).searchOpened) ↔ i ∈ st.searchOpened := by
  induction l generalizing st with
  | nil => exact Iff.rfl
  | cons a l ih =>
    rw [closeSiblings_cons]
    by_cases ha : a ≠ i && isItemOpen st a
    · rw [if_pos ha, ih]
      have hne : i ≠ a := by
        simp only [Bool.and_eq_true, ne_eq, decide_eq_true_eq] at ha
        exact fun hc => ha.1 hc.symm
      exact setItemStatePlain_searchOpened_mem_ne st i a false src hne
    · rw [if_neg ha, ih]

theorem itemOpenMarker_true_isOpen (st : St) (a : Nat)
    (h : itemOpenMarker st a = some "true") : isItemOpen st a = true := by
  unfold itemOpenMarker at h
  unfold isItemOpen isItemOpenIt
  cases hg : st.items.get? a with
  | none => rw [hg] at h; exact absurd h (by simp)
  | some it =>
    rw [hg] at h
    simp only [] at h
    simp [hg, h]

theorem setItemStatePlain_marker_close (st : St) (j : Nat) (src : Src)
    (hwf : wfItem st j = true) :
    itemOpenMarker (setItemStatePlain st j false src) j = some "false" := by
  rw [setItemStatePlain_wf st j false src hwf]
  unfold itemOpenMarker
  rw [itemMutations_get_self]
  unfold wfItem at hwf
  cases hg : st.items.get? j with
  | none => rw [hg] at hwf; exact absurd hwf (by simp)
  | some it => simp [hg, mutateItem_dataOpen, boolStr]

theorem itemOpenMarker_eq_of_get (st st2 : St) (j : Nat)
    (h : st2.items.get? j = st.items.get? j) :
    itemOpenMarker st2 j = itemOpenMarker st j := by
  unfold itemOpenMarker
  rw [h]

/-- One accordion step leaves sibling `a` with a `"false"` open marker,
provided `a` is well-formed and its marker was `"true"` or `"false"`. -/
theorem closeStep_marker_false (st : St) (a i : Nat) (src : Src)
    (hne : a ≠ i) (hwf : wfItem st a = true)
    (htf : itemOpenMarker st a = some "true" ∨ itemOpenMarker st a = some "false") :
    itemOpenMarker
      (if a ≠ i && isItemOpen st a then setItemStatePlain st a false src else st) a =
        some "false" := by
  by_cases hc : a ≠ i && isItemOpen st a
  · rw [if_pos hc]
    exact setItemStatePlain_marker_close st a src hwf
  · rw [if_neg hc]
    rcases htf with ht | hf
    · have := itemOpenMarker_true_isOpen st a ht
      exact absurd (by simp [hne, this] : (a ≠ i && isItemOpen st a) = true) hc
    · exact hf

/-- A `"false"` open marker is stable under the whole accordion loop. -/
theorem closeSiblings_marker_false_stable (l : List Nat) (st : St) (i j : Nat) (src : Src)
    (h : itemOpenMarker st j = some "false") :
    itemOpenMarker (closeSiblings st i src l) j = some "false" := by
  induction l generalizing st with
  | nil => exact h
  | cons a l ih =>
    rw [closeSiblings_cons]
    by_cases hc : a ≠ i && isItemOpen st a
    · rw [if_pos hc]
      by_cases haj : j = a
      · subst haj
        apply ih
        cases hw : wfItem st j with
        | false => rw [setItemStatePlain_not_wf st j false src hw]; exact h
        | true => exact setItemStatePlain_marker_close st j src hw
      · apply ih
        rw [itemOpenMarker_eq_of_get st _ j (setItemStatePlain_get_ne st a j false src haj)]
        exact h
    · rw [if_neg hc]
      exact ih st h

/-- After the accordion loop, every member sibling (well-formed, with a
boolean open marker) carries a `"false"` open marker. -/
theorem closeSiblings_closes (l : List Nat) (st : St) (i : Nat) (src : Src)
    (hyp : ∀ j ∈ l, j ≠ i → wfItem st j = true ∧
      (itemOpenMarker st j = some "true" ∨ itemOpenMarker st j = some "false")) :
    ∀ j ∈ l, j ≠ i → itemOpenMarker (closeSiblings st i src l) j = some "false" := by
  induction l generalizing st with
  | nil => intro j hj; exact absurd hj (by simp)
  | cons a l ih =>
    intro j hj hji
    rw [closeSiblings_cons]
    by_cases haj : j = a
    · subst haj
      obtain ⟨hwf, htf⟩ := hyp j (by simp) hji
      exact closeSiblings_marker_false_stable l _ i j src
        (closeStep_marker_false st j i src hji hwf htf)
    · have hjl : j ∈ l := by
        rcases List.mem_cons.mp hj with hc | hc
        · exact absurd hc haj
        · exact hc
      apply ih
      · intro j' hj' hji'
        obtain ⟨hwf, htf⟩ := hyp j' (by simp [hj']) hji'
        constructor
        · by_cases hc : a ≠ i && isItemOpen st a
          · rw [if_pos hc, wfItem_setItemStatePlain]; exact hwf
          · rw [if_neg hc]; exact hwf
        · by_cases hja : j' = a
          · subst hja
            right
            exact closeStep_marker_false st j' i src hji' hwf htf
          · by_cases hc : a ≠ i && isItemOpen st a
            · rw [if_pos hc,
                itemOpenMarker_eq_of_get st _ j' (setItemStatePlain_get_ne st a j' false src hja)]
              exact htf
            · rw [if_neg hc]; exact htf
      · exact hjl
      · exact hji

theorem setItemState_get_self (st : St) (i : Nat) (op : Bool) (src : Src) (grp : Option Grp)
    (it : ItemSt) (hget : st.items.get? i = some it) (hwf : wfItem st i = true) :
    (setItemState st i op src grp).items.get? i = some (mutateItem it op src) := by
  cases grp with
  | none =>
    rw [setItemState_wf_none st i op src hwf, itemMutations_get_self, hget]
    rfl
  | some g =>
    rw [setItemState_wf_some st i op src g hwf]
    by_cases hacc : op && g.accordion
    · rw [if_pos hacc, itemMutations_get_self, closeSiblings_get_self, hget]
      rfl
    · rw [if_neg hacc, itemMutations_get_self, hget]
      rfl

theorem itemMutations_searchOpened (st : St) (i : Nat) (op : Bool) (src : Src) :
    (itemMutations st i op src).searchOpened =
      if op then
        match src with
        | Src.search => addId st.searchOpened i
        | Src.user => removeId st.searchOpened i
      else
        match src with
        | Src.search => removeId st.searchOpened i
        | Src.user => st.searchOpened := rfl

theorem mutateItem_dataOpenedBySearch (it : ItemSt) (op : Bool) (src : Src) :
    (mutateItem it op src).dataOpenedBySearch =
      if op then
        match src with
        | Src.search => some "true"
        | Src.user => none
      else
        match src with
        | Src.search => none
        | Src.user => it.dataOpenedBySearch := rfl

/-- Claim C1 (amended).  Provenance bookkeeping of `setItemState` on an
item whose content and trigger are present: opening with provenance
"search" sets the opened-by-search marker and adds the item to the
search-opened set; opening with "user" removes both; closing with
"search" removes both; but closing with "user" leaves the marker and the
set membership unchanged (the source only clears provenance on close
when the close itself comes from search). -/
theorem setItemState_provenance (st : St) (i : Nat) (op : Bool) (src : Src) (grp : Option Grp)
    (it : ItemSt) (hget : st.items.get? i = some it) (hwf : wfItem st i = true) :
    (op = true → src = Src.search →
      itemSearchMarker (setItemState st i op src grp) i = some "true" ∧
        i ∈ (setItemState st i op src grp).searchOpened) ∧
    (op = true → src = Src.user →
      itemSearchMarker (setItemState st i op src grp) i = none ∧
        i ∉ (setItemState st i op src grp).searchOpened) ∧
    (op = false → src = Src.search →
      itemSearchMarker (setItemState st i op src grp) i = none ∧
        i ∉ (setItemState st i op src grp).searchOpened) ∧
    (op = false → src = Src.user →
      itemSearchMarker (setItemState st i op src grp) i = itemSearchMarker st i ∧
        ((i ∈ (setItemState st i op src grp).searchOpened) ↔ i ∈ st.searchOpened)) := by
  have hmarker : itemSearchMarker (setItemState st i op src grp) i =
      (mutateItem it op src).dataOpenedBySearch := by
    unfold itemSearchMarker
    rw [setItemState_get_self st i op src grp it hget hwf]
  refine ⟨?_, ?_, ?_, ?_⟩
  · rintro rfl rfl
    refine ⟨by rw [hmarker]; rfl, ?_⟩
    cases grp with
    | none =>
      rw [setItemState_wf_none st i true Src.search hwf, itemMutations_searchOpened]
      simp only [if_pos rfl]
      exact mem_addId_self _ i
    | some g =>
      rw [setItemState_wf_some st i true Src.search g hwf]
      by_cases hacc : true && g.accordion <;>
        [rw [if_pos hacc, itemMutations_searchOpened]; rw [if_neg hacc, itemMutations_searchOpened]] <;>
        · simp only [if_pos rfl]
          exact mem_addId_self _ i
  · rintro rfl rfl
    refine ⟨by rw [hmarker]; rfl, ?_⟩
    cases grp with
    | none =>
      rw [setItemState_wf_none st i true Src.user hwf, itemMutations_searchOpened]
      simp only [if_pos rfl]
      exact not_mem_removeId_self _ i
    | some g =>
      rw [setItemState_wf_some st i true Src.user g hwf]
      by_cases hacc : true && g.accordion <;>
        [rw [if_pos hacc, itemMutations_searchOpened]; rw [if_neg hacc, itemMutations_searchOpened]] <;>
        · simp only [if_pos rfl]
          exact not_mem_removeId_self _ i
  · rintro rfl rfl
    refine ⟨by rw [hmarker]; rfl, ?_⟩
    cases grp with
    | none =>
      rw [setItemState_wf_none st i false Src.search hwf, itemMutations_searchOpened]
      simp only [Bool.false_eq_true, if_false]
      exact not_mem_removeId_self _ i
    | some g =>
      rw [setItemState_wf_some st i false Src.search g hwf]
      simp only [Bool.false_and, if_neg (by simp : ¬(false = true))]
      rw [itemMutations_searchOpened]
      simp only [Bool.false_eq_true, if_false]
      exact not_mem_removeId_self _ i
  · rintro rfl rfl
    constructor
    · rw [hmarker, mutateItem_dataOpenedBySearch]
      simp only [Bool.false_eq_true, if_false]
      unfold itemSearchMarker
      rw [hget]
    · cases grp with
      | none =>
        rw [setItemState_wf_none st i false Src.user hwf, itemMutations_searchOpened]
        simp
      | some g =>
        rw [setItemState_wf_some st i false Src.user g hwf]
        simp only [Bool.false_and, if_neg (by simp : ¬(false = true))]
        rw [itemMutations_searchOpened]
        simp

-- ---------------------------------------------------------------------------
-- Claim C5: missing sub-elements make setItemState (and toggle) a no-op
-- ---------------------------------------------------------------------------

/-- Claim C5.  For every item whose content element or trigger element is
missing, `setItemState` returns without performing any mutation — the
whole state (attributes, classes, icons, animation, provenance, events)
is unchanged — regardless of the requested open state, provenance, and
group context; in particular `toggle` on such an item is a no-op (and,
being a total function, never throws). -/
theorem setItemState_missing_noop (st : St) (i : Nat) (op : Bool) (src : Src)
    (grp : Option Grp) (grps : List Grp) (it : ItemSt)
    (hget : st.items.get? i = some it)
    (hmiss : it.content = none ∨ it.trigger = none) :
    setItemState st i op src grp = st ∧ toggle st grps i = st := by
  have hwf : wfItem st i = false := by
    unfold wfItem
    rw [hget]
    rcases hmiss with h | h <;> simp [h]
  exact ⟨setItemState_not_wf st i op src grp hwf,
    setItemState_not_wf st i _ Src.user _ hwf⟩

/-- An item with a trigger but no content element. -/
def itemNoContent : ItemSt :=
  { dataOpen := some "true", dataOpenedBySearch := none, activeCls := true
    trigger := some { tag := "DIV", ariaExpanded := some "true", ariaControls := none,
                      role := none, tabindex := none }
    title := none, content := none, iconOpen := none, iconClose := none }

/-- A one-item document around `itemNoContent`. -/
def stNoContent : St :=
  { items := [itemNoContent], marks := [], currentIndex := -1, searchOpened := []
    emptyDisplay := none, counter := none, firstGroup := none
    styleEl := false, flagInit := false, instOwned := false, events := [] }

theorem setItemState_missing_noop_witness :
    setItemState stNoContent 0 true Src.user none = stNoContent ∧
      toggle stNoContent [] 0 = stNoContent :=
  setItemState_missing_noop stNoContent 0 true Src.user none [] itemNoContent rfl
    (Or.inl rfl)

-- ---------------------------------------------------------------------------
-- Claim C1: provenance bookkeeping
-- ---------------------------------------------------------------------------

/-- A well-formed item currently open with search provenance. -/
def itemSearchOpened : ItemSt :=
  { dataOpen := some "true", dataOpenedBySearch := some "true", activeCls := true
    trigger := some { tag := "DIV", ariaExpanded := some "true", ariaControls := none,
                      role := none, tabindex := none }
    title := none
    content := some { hidden := false, visible := true, styleHeight := "auto", id := none,
                      text := "", marks := 0 }
    iconOpen := none, iconClose := none }

/-- A one-item document around `itemSearchOpened`, with the item in the
search-opened set. -/
def stSearchOpened : St :=
  { items := [itemSearchOpened], marks := [], currentIndex := -1, searchOpened := [0]
    emptyDisplay := none, counter := none, firstGroup := none
    styleEl := false, flagInit := false, instOwned := false, events := [] }

/-- Claim C1, counterexample.  Closing a search-opened item with
provenance "user" does *not* remove the opened-by-search marker nor the
item's membership in the search-opened set, contradicting the claim that
closing with either provenance removes both. -/
theorem setItemState_close_user_keeps_provenance :
    itemSearchMarker (setItemState stSearchOpened 0 false Src.user none) 0 = some "true" ∧
      0 ∈ (setItemState stSearchOpened 0 false Src.user none).searchOpened := by
  constructor
  · rfl
  · decide

theorem setItemState_provenance_witness :
    itemSearchMarker (setItemState stSearchOpened 0 true Src.search none) 0 = some "true" ∧
      0 ∈ (setItemState stSearchOpened 0 true Src.search none).searchOpened :=
  (setItemState_provenance stSearchOpened 0 true Src.search none itemSearchOpened rfl
    rfl).1 rfl rfl

-- ---------------------------------------------------------------------------
-- Claim C3: accordion exclusivity
-- ---------------------------------------------------------------------------

/-- Claim C3.  For a group with the accordion flag enabled, opening an
item of the group through `setItemState` with that group as context
leaves every other member with open marker `"false"`, and leaves every
item outside the group (in particular every item of any disjoint other
group) entirely unchanged — the forced sibling closures pass no group
context (`closeSiblings` invokes `setItemStatePlain`), so they can never
cascade beyond the group's own members.  The members are assumed
well-formed with a boolean open marker, the state every parsed item is
in from initialization onward. -/
theorem accordion_exclusivity (st : St) (g : Grp) (i : Nat) (src : Src)
    (hacc : g.accordion = true) (hi : i ∈ g.memberIds)
    (hyp : ∀ j ∈ g.memberIds, wfItem st j = true ∧
      (itemOpenMarker st j = some "true" ∨ itemOpenMarker st j = some "false")) :
    (∀ j ∈ g.memberIds, j ≠ i →
      itemOpenMarker (setItemState st i true src (some g)) j = some "false") ∧
    (∀ k, k ∉ g.memberIds →
      (setItemState st i true src (some g)).items.get? k = st.items.get? k) ∧
    (∀ g' : Grp, (∀ k ∈ g'.memberIds, k ∉ g.memberIds) → ∀ k ∈ g'.memberIds,
      (setItemState st i true src (some g)).items.get? k = st.items.get? k) := by
  have hwf : wfItem st i = true := (hyp i hi).1
  have hrw : setItemState st i true src (some g) =
      itemMutations (closeSiblings st i src g.memberIds) i true src := by
    rw [setItemState_wf_some st i true src g hwf]
    simp [hacc]
  have hout : ∀ k, k ∉ g.memberIds →
      (setItemState st i true src (some g)).items.get? k = st.items.get? k := by
    intro k hk
    have hki : k ≠ i := fun hc => hk (hc ▸ hi)
    rw [hrw, itemMutations_get_ne _ i k true src hki,
      closeSiblings_get_not_mem g.memberIds st i k src hk]
  refine ⟨?_, hout, ?_⟩
  · intro j hj hji
    rw [hrw, itemOpenMarker_eq_of_get _ _ j (itemMutations_get_ne _ i j true src hji)]
    exact closeSiblings_closes g.memberIds st i src
      (fun j' hj' hji' => hyp j' hj') j hj hji
  · intro g' hdisj k hk
    exact hout k (hdisj k hk)

/-- A well-formed closed item (the post-initialization shape). -/
def itemClosedA : ItemSt :=
  { dataOpen := some "false", dataOpenedBySearch := none, activeCls := false
    trigger := some { tag := "DIV", ariaExpanded := some "false", ariaControls := none,
                      role := none, tabindex := none }
    title := none
    content := some { hidden := true, visible := false, styleHeight := "", id := none,
                      text := "", marks := 0 }
    iconOpen := none, iconClose := none }

/-- A well-formed open item (the post-open shape). -/
def itemOpenA : ItemSt :=
  { dataOpen := some "true", dataOpenedBySearch := none, activeCls := true
    trigger := some { tag := "DIV", ariaExpanded := some "true", ariaControls := none,
                      role := none, tabindex := none }
    title := none
    content := some { hidden := false, visible := true, styleHeight := "auto", id := none,
                      text := "", marks := 0 }
    iconOpen := none, iconClose := none }

/-- Three items: an accordion group holds items 0 (closed) and 1 (open);
item 2, open, belongs to a different group. -/
def stAccordion : St :=
  { items := [itemClosedA, itemOpenA, itemOpenA], marks := [], currentIndex := -1
    searchOpened := [], emptyDisplay := none, counter := none, firstGroup := none
    styleEl := false, flagInit := false, instOwned := false, events := [] }

/-- The accordion group of `stAccordion`. -/
def grpAccordion : Grp :=
  { memberIds := [0, 1], accordion := true, defaultOpen := none }

/-- The other (non-accordion) group of `stAccordion`. -/
def grpOther : Grp :=
  { memberIds := [2], accordion := false, defaultOpen := none }

theorem accordion_exclusivity_witness :
    itemOpenMarker (setItemState stAccordion 0 true Src.user (some grpAccordion)) 1 =
        some "false" ∧
      (setItemState stAccordion 0 true Src.user (some grpAccordion)).items.get? 2 =
        stAccordion.items.get? 2 := by
  have h := accordion_exclusivity stAccordion grpAccordion 0 Src.user rfl
    (by decide)
    (by
      intro j hj
      constructor
      · fin_cases hj <;> rfl
      · fin_cases hj
        · right; rfl
        · left; rfl)
  exact ⟨h.1 1 (by decide) (by decide),
    h.2.2 grpOther (by decide) 2 (by decide)⟩

-- ---------------------------------------------------------------------------
-- Claim C8: toggle involution
-- ---------------------------------------------------------------------------

theorem wfItem_of_get (st : St) (i : Nat) (it : ItemSt)
    (hget : st.items.get? i = some it) (hc : it.content.isSome = true)
    (ht : it.trigger.isSome = true) : wfItem st i = true := by
  unfold wfItem
  rw [hget]
  simp [hc, ht]

/-- Claim C8 (amended).  `toggle` twice restores the open marker and the
active-class membership for every well-formed item in a *consistent*
state — one where the open marker, the ARIA flag, the active class and
the content's hidden/rendered flags all agree on the same boolean (the
shape every item has from initialization onward, once animations have
settled).  On inconsistent states (reachable through external DOM
mutation) the involution fails, see the counterexample. -/
theorem toggle_involution (st : St) (grps : List Grp) (i : Nat) (it : ItemSt)
    (tr : TriggerSt) (c : ContentSt) (b : Bool)
    (hget : st.items.get? i = some it)
    (htr : it.trigger = some tr) (hc : it.content = some c)
    (hmark : it.dataOpen = some (boolStr b))
    (haria : tr.ariaExpanded = some (boolStr b))
    (hcls : it.activeCls = b)
    (hhid : c.hidden = !b) (hvis : c.visible = b) :
    itemOpenMarker (toggle (toggle st grps i) grps i) i = some (boolStr b) ∧
      activeClsOf (toggle (toggle st grps i) grps i) i = some b := by
  have hwf : wfItem st i = true := wfItem_of_get st i it hget (by simp [hc]) (by simp [htr])
  have hopen : isItemOpen st i = b := by
    unfold isItemOpen
    rw [hget]
    cases b with
    | true => simp [isItemOpenIt, hmark, boolStr]
    | false =>
      simp [isItemOpenIt, hmark, htr, haria, hc, hvis, isElementVisible, boolStr]
  have ht1 : toggle st grps i = setItemState st i (!b) Src.user (findGroup grps i) := by
    unfold toggle
    rw [hopen]
  have hget1 : (toggle st grps i).items.get? i = some (mutateItem it (!b) Src.user) := by
    rw [ht1]
    exact setItemState_get_self st i (!b) Src.user (findGroup grps i) it hget hwf
  have hwf1 : wfItem (toggle st grps i) i = true := by
    apply wfItem_of_get _ i _ hget1
    · rw [(mutateItem_wf it (!b) Src.user).1]
      simp [hc]
    · rw [(mutateItem_wf it (!b) Src.user).2]
      simp [htr]
  have hopen1 : isItemOpen (toggle st grps i) i = !b := by
    unfold isItemOpen
    rw [hget1]
    exact isItemOpenIt_mutateItem it (!b) Src.user
  set t1 := toggle st grps i with ht1def
  have ht2 : toggle t1 grps i = setItemState t1 i b Src.user (findGroup grps i) := by
    unfold toggle
    rw [hopen1, Bool.not_not]
  have hget2 : (toggle t1 grps i).items.get? i =
      some (mutateItem (mutateItem it (!b) Src.user) b Src.user) := by
    rw [ht2]
    exact setItemState_get_self _ i b Src.user (findGroup grps i) _ hget1 hwf1
  constructor
  · unfold itemOpenMarker
    rw [hget2]
    show (mutateItem (mutateItem it (!b) Src.user) b Src.user).dataOpen = some (boolStr b)
    rw [mutateItem_dataOpen]
  · unfold activeClsOf
    rw [hget2]
    show some (mutateItem (mutateItem it (!b) Src.user) b Src.user).activeCls = some b
    rw [mutateItem_activeCls]

/-- An *inconsistent* item: open by marker and ARIA, yet without the
active class and with hidden, non-rendered content. -/
def itemInconsistent : ItemSt :=
  { dataOpen := some "true", dataOpenedBySearch := none, activeCls := false
    trigger := some { tag := "DIV", ariaExpanded := some "true", ariaControls := none,
                      role := none, tabindex := none }
    title := none
    content := some { hidden := true, visible := false, styleHeight := "", id := none,
                      text := "", marks := 0 }
    iconOpen := none, iconClose := none }

/-- A one-item document around `itemInconsistent`. -/
def stInconsistent : St :=
  { items := [itemInconsistent], marks := [], currentIndex := -1, searchOpened := []
    emptyDisplay := none, counter := none, firstGroup := none
    styleEl := false, flagInit := false, instOwned := false, events := [] }

/-- Claim C8, counterexample.  From an item state with open marker
`"true"` but without the active class, two `toggle` calls end with the
active class present: the second toggle re-opens the item and
unconditionally adds the class, so the observable state does not return
to its original value for every starting state. -/
theorem toggle_twice_not_involution :
    activeClsOf stInconsistent 0 = some false ∧
      activeClsOf (toggle (toggle stInconsistent [] 0) [] 0) 0 = some true := by
  constructor
  · rfl
  · rfl

/-- A consistent open item (marker, ARIA, class, hidden, rendered all
agreeing). -/
def itemConsistentOpen : ItemSt :=
  { dataOpen := some "true", dataOpenedBySearch := none, activeCls := true
    trigger := some { tag := "DIV", ariaExpanded := some "true", ariaControls := none,
                      role := none, tabindex := none }
    title := none
    content := some { hidden := false, visible := true, styleHeight := "auto", id := none,
                      text := "", marks := 0 }
    iconOpen := none, iconClose := none }

/-- A one-item document around `itemConsistentOpen`. -/
def stConsistentOpen : St :=
  { items := [itemConsistentOpen], marks := [], currentIndex := -1, searchOpened := []
    emptyDisplay := none, counter := none, firstGroup := none
    styleEl := false, flagInit := false, instOwned := false, events := [] }

theorem toggle_involution_witness :
    itemOpenMarker (toggle (toggle stConsistentOpen [] 0) [] 0) 0 = some (boolStr true) ∧
      activeClsOf (toggle (toggle stConsistentOpen [] 0) [] 0) 0 = some true :=
  toggle_involution stConsistentOpen [] 0 itemConsistentOpen _ _ true rfl rfl rfl rfl rfl
    rfl rfl rfl

-- ---------------------------------------------------------------------------
-- Claim C4: highlight run splitting (code bug: trim misalignment)
-- ---------------------------------------------------------------------------

/-- Claim C4 (code bug).  `highlightText` searches for the query in
`normalizeText(original)` — which is lowercased *and trimmed* — but cuts
the runs out of the untrimmed original at those indices.  On a text node
with leading whitespace the marked runs are therefore shifted left:
here the node `"  Password reset"` (whose normalized text does contain
the query, first conjunct below left implicit in the evaluation) gets a
single mark wrapping `"  Passwo"`, which is not a case-insensitive
occurrence of `"password"`, while the true occurrence sits at offset 2.
The concatenation of the runs still equals the original text. -/
theorem highlightRuns_trim_misalignment :
    highlightRuns "  Password reset".data "password".data =
        [Run.marked "  Passwo".data, Run.plain "rd reset".data] ∧
      containsSub (normalizeText "  Password reset".data) "password".data = true ∧
      ("  Passwo".data.map Char.toLower ≠ "password".data) ∧
      (sliceChars "  Password reset".data 2 10).map Char.toLower = "password".data := by
  refine ⟨by decide, by decide, by decide, by decide⟩

-- ---------------------------------------------------------------------------
-- Claim C9: match navigator
-- ---------------------------------------------------------------------------

/-- The JS ring expression `((x % n) + n) % n` (truncated `%`) agrees
with the same expression read with Euclidean `%`. -/
theorem jsModRing (x n : Int) (hn : 0 < n) :
    ((x.tmod n) + n).tmod n = (x % n + n) % n := by
  have hadd : ∀ a : Int, (a + n) % n = a % n := by
    intro a
    have h := Int.add_mul_emod_self_left a n 1
    rwa [mul_one] at h
  have hself : ∀ a : Int, a % n % n = a % n := fun a => Int.emod_emod_of_dvd a dvd_rfl
  have hkey : ∀ a : Int, (-(a % n)) % n = (-a) % n := by
    intro a
    rw [Int.neg_emod, Int.neg_emod, Int.sub_emod n a, Int.sub_emod n (a % n), hself]
  rcases le_or_lt 0 x with hx | hx
  · rw [Int.tmod_eq_emod hx (le_of_lt hn)]
    have h1 : 0 ≤ x % n + n := by
      have := Int.emod_nonneg x (by omega : n ≠ 0)
      omega
    rw [Int.tmod_eq_emod h1 (le_of_lt hn)]
  · have hy : (0 : Int) ≤ -x := by omega
    have hneg : x.tmod n = -((-x).tmod n) := by
      rw [Int.tmod_def, Int.tmod_def, Int.neg_tdiv]
      ring
    rw [hneg, Int.tmod_eq_emod hy (le_of_lt hn)]
    have hr0 : 0 ≤ (-x) % n := Int.emod_nonneg _ (by omega)
    have hrn : (-x) % n < n := Int.emod_lt_of_pos _ hn
    have h1 : 0 ≤ -((-x) % n) + n := by omega
    rw [Int.tmod_eq_emod h1 (le_of_lt hn), hadd, hadd, hkey]
    simp

theorem updateMatchCounter_currentIndex (st : St) :
    (updateMatchCounter st).currentIndex = st.currentIndex := by
  unfold updateMatchCounter
  cases st.counter <;> rfl

theorem updateMatchCounter_marks (st : St) :
    (updateMatchCounter st).marks = st.marks := by
  unfold updateMatchCounter
  cases st.counter <;> rfl

theorem updateMatchCounter_counter_pos (st : St)
    (h : st.counter.isSome = true) (htot : (st.marks.length : Int) ≠ 0)
    (hcur : st.currentIndex ≠ -1) :
    (updateMatchCounter st).counter =
      some s!"{st.currentIndex + 1}/{(st.marks.length : Int)}" := by
  unfold updateMatchCounter
  cases hco : st.counter with
  | none => rw [hco] at h; exact absurd h (by simp)
  | some x =>
    simp only []
    rw [if_neg (by simp [htot, hcur])]

theorem navigateToMatch_pos (st : St) (idx : Int) (h : ¬st.marks.length = 0) :
    navigateToMatch st idx =
      updateMatchCounter
        { st with
          currentIndex :=
            ((idx.tmod (st.marks.length : Int)) + (st.marks.length : Int)).tmod
              (st.marks.length : Int)
          marks :=
            updateAt (st.marks.map (fun m => { m with current := false }))
              (((idx.tmod (st.marks.length : Int)) + (st.marks.length : Int)).tmod
                  (st.marks.length : Int)).toNat
              (fun m => { m with current := true }) } := by
  unfold navigateToMatch
  rw [if_neg h]

/-- Claim C9.  `advanceMatch(delta)` is a no-op when the match list is
empty; otherwise, with `N` the match count and `current` the cursor
(read as 0 when unset), the new cursor is `((current + delta) % N + N) %
N`, the current-highlight class ends up on exactly the new current mark,
the match list keeps its length, and (when the counter element exists)
the counter shows `"<1-based index>/<total>"`. -/
theorem advanceMatch_spec (st : St) (delta : Int) :
    (st.marks = [] → advanceMatch st delta = st) ∧
    (st.marks ≠ [] →
      ((advanceMatch st delta).currentIndex =
        (((if st.currentIndex = -1 then 0 else st.currentIndex) + delta) %
            (st.marks.length : Int) + (st.marks.length : Int)) % (st.marks.length : Int)) ∧
      (advanceMatch st delta).marks.length = st.marks.length ∧
      (∀ k : Nat, k < st.marks.length →
        ((advanceMatch st delta).marks.get? k).map MarkSt.current =
          some (decide ((k : Int) = (advanceMatch st delta).currentIndex))) ∧
      (st.counter.isSome = true →
        (advanceMatch st delta).counter =
          some s!"{(advanceMatch st delta).currentIndex + 1}/{(st.marks.length : Int)}")) := by
  constructor
  · intro hm
    unfold advanceMatch
    rw [if_pos (by simp [hm])]
  · intro hne
    have hlen0 : ¬st.marks.length = 0 := by
      intro hc
      exact hne (List.length_eq_zero.mp hc)
    have hn : (0 : Int) < (st.marks.length : Int) := by
      have := Nat.pos_of_ne_zero hlen0
      exact_mod_cast this
    have hadv : advanceMatch st delta =
        navigateToMatch st ((if st.currentIndex = -1 then 0 else st.currentIndex) + delta) := by
      unfold advanceMatch
      rw [if_neg hlen0]
    set x : Int := (if st.currentIndex = -1 then 0 else st.currentIndex) + delta with hx
    set n : Int := (st.marks.length : Int) with hnn
    set ni : Int := ((x.tmod n) + n).tmod n with hni
    have hform : ni = (x % n + n) % n := jsModRing x n hn
    have hni0 : 0 ≤ ni := by
      rw [hform]
      exact Int.emod_nonneg _ (by omega)
    have hniLt : ni < n := by
      rw [hform]
      exact Int.emod_lt_of_pos _ hn
    have hnav : advanceMatch st delta =
        updateMatchCounter
          { st with
            currentIndex := ni
            marks :=
              updateAt (st.marks.map (fun m => { m with current := false })) ni.toNat
                (fun m => { m with current := true }) } := by
      rw [hadv, navigateToMatch_pos st x hlen0]
    have hcur : (advanceMatch st delta).currentIndex = ni := by
      rw [hnav, updateMatchCounter_currentIndex]
    have hmarks : (advanceMatch st delta).marks =
        updateAt (st.marks.map (fun m => { m with current := false })) ni.toNat
          (fun m => { m with current := true }) := by
      rw [hnav, updateMatchCounter_marks]
    refine ⟨by rw [hcur, hform], ?_, ?_, ?_⟩
    · rw [hmarks, updateAt_length, List.length_map]
    · intro k hk
      rw [hcur, hmarks]
      by_cases hkni : k = ni.toNat
      · subst hkni
        rw [updateAt_get_self, List.get?_map]
        cases hg : st.marks.get? ni.toNat with
        | none =>
          have := List.get?_eq_none.mp hg
          omega
        | some m =>
          have hdec : ((ni.toNat : Int) = ni) := Int.toNat_of_nonneg hni0
          simp [hg, hdec]
      · rw [updateAt_get_ne _ _ _ _ hkni, List.get?_map]
        cases hg : st.marks.get? k with
        | none =>
          have := List.get?_eq_none.mp hg
          omega
        | some m =>
          have hkint : ¬((k : Int) = ni) := by
            intro hc
            apply hkni
            omega
          simp [hg, hkint]
    · intro hco
      have hlenrec : (updateAt (st.marks.map (fun m => { m with current := false })) ni.toNat
          (fun m => { m with current := true })).length = st.marks.length := by
        rw [updateAt_length, List.length_map]
      rw [hcur, hnav, updateMatchCounter_counter_pos]
      · rw [hlenrec]
      · simpa using hco
      · rw [hlenrec]
        exact_mod_cast hlen0
      · simp only []
        omega

/-- A document with three matches, cursor on the second, and a counter
element. -/
def stNavW : St :=
  { items := [], marks := [{ owner := 0, current := false }, { owner := 0, current := true },
      { owner := 0, current := false }], currentIndex := 1, searchOpened := []
    emptyDisplay := none, counter := some "2/3", firstGroup := none
    styleEl := false, flagInit := false, instOwned := false, events := [] }

theorem advanceMatch_spec_witness :
    (advanceMatch stNavW (-2)).currentIndex =
        (((if stNavW.currentIndex = -1 then 0 else stNavW.currentIndex) + (-2)) %
            (stNavW.marks.length : Int) + (stNavW.marks.length : Int)) %
          (stNavW.marks.length : Int) ∧
      (advanceMatch stNavW (-2)).counter = some "3/3" := by
  obtain ⟨h1, h2, h3, h4⟩ := (advanceMatch_spec stNavW (-2)).2 (by decide)
  refine ⟨h1, ?_⟩
  rw [h4 rfl, h1]
  rfl

-- ---------------------------------------------------------------------------
-- Claim C6: empty-query search
-- ---------------------------------------------------------------------------

theorem performSearch_empty_eq (st : St) (q : String)
    (h : normalizeText q.data = []) :
    performSearch st q = updateEmptyState (clearAllHighlights st) true := by
  simp only [performSearch]
  rw [if_pos h]

/-- Claim C6.  On a query whose normalization is empty, `performSearch`
clears all highlight marks and resets the match list and cursor, hides
the empty-state element (signalling "has matches"), and returns without
opening or closing anything: every item keeps its open marker and open
state, the search-opened set is untouched, and no event is dispatched. -/
theorem performSearch_empty_spec (st : St) (q : String)
    (h : normalizeText q.data = []) :
    (performSearch st q).marks = [] ∧
      (performSearch st q).currentIndex = -1 ∧
      (∀ i, itemMarkCount (performSearch st q) i = 0) ∧
      (∀ i, itemOpenMarker (performSearch st q) i = itemOpenMarker st i) ∧
      (∀ i, isItemOpen (performSearch st q) i = isItemOpen st i) ∧
      (performSearch st q).searchOpened = st.searchOpened ∧
      (st.emptyDisplay.isSome = true → (performSearch st q).emptyDisplay = some "none") ∧
      (performSearch st q).events = st.events := by
  rw [performSearch_empty_eq st q h]
  have hitems : (updateEmptyState (clearAllHighlights st) true).items =
      st.items.map clearHighlightsItem := rfl
  refine ⟨rfl, rfl, ?_, ?_, ?_, rfl, ?_, rfl⟩
  · intro i
    unfold itemMarkCount
    rw [hitems, List.get?_map]
    cases hg : st.items.get? i with
    | none => rfl
    | some it =>
      obtain ⟨o, obs, ac, tr, ti, co, io, ic⟩ := it
      cases ti <;> cases co <;> rfl
  · intro i
    unfold itemOpenMarker
    rw [hitems, List.get?_map]
    cases hg : st.items.get? i with
    | none => rfl
    | some it => rfl
  · intro i
    unfold isItemOpen
    rw [hitems, List.get?_map]
    cases hg : st.items.get? i with
    | none => rfl
    | some it =>
      simp only [Option.map_some]
      obtain ⟨o, obs, ac, tr, ti, co, io, ic⟩ := it
      cases co <;> simp [clearHighlightsItem, isItemOpenIt, isElementVisible]
  · intro hso
    unfold updateEmptyState
    cases he : st.emptyDisplay with
    | none => rw [he] at hso; exact absurd hso (by simp)
    | some d => simp [clearAllHighlights, he]

/-- A document with one search-opened open item and a visible
empty-state element. -/
def stEmptyQuery : St :=
  { items := [itemSearchOpened], marks := [{ owner := 0, current := true }]
    currentIndex := 0, searchOpened := [0], emptyDisplay := some ""
    counter := none, firstGroup := some 0
    styleEl := true, flagInit := true, instOwned := true, events := [] }

theorem performSearch_empty_spec_witness :
    (performSearch stEmptyQuery "  ").marks = [] ∧
      itemOpenMarker (performSearch stEmptyQuery "  ") 0 = itemOpenMarker stEmptyQuery 0 ∧
      (performSearch stEmptyQuery "  ").searchOpened = stEmptyQuery.searchOpened ∧
      (performSearch stEmptyQuery "  ").emptyDisplay = some "none" := by
  obtain ⟨h1, h2, h3, h4, h5, h6, h7, h8⟩ :=
    performSearch_empty_spec stEmptyQuery "  " (by decide)
  exact ⟨h1, h4 0, h6, h7 rfl⟩

-- ---------------------------------------------------------------------------
-- Claim C10: the search event
-- ---------------------------------------------------------------------------

/-- The non-empty-query pipeline of `performSearch` before the final
event dispatch (factored out to reason about the dispatch). -/
def psCore (st : St) (query : String) : St :=
  let normalised := normalizeText query.data
  let st := clearAllHighlights st
  let st := closeStale st normalised
  let st := openMatching st normalised
  let st := { st with marks := collectMarks st.items }
  let hasMatches := st.marks.length > 0
  let st := updateEmptyState st hasMatches
  if hasMatches then navigateToMatch { st with currentIndex := 0 } 0 else st

theorem performSearch_nonempty_eq (st : St) (q : String)
    (h : ¬normalizeText q.data = []) :
    performSearch st q = dispatchSearch (psCore st q) q := by
  simp only [performSearch, psCore]
  rw [if_neg h]

/-- Generic projection-invariance for the item folds. -/
theorem foldl_pres {β : Type} (P : St → β) (f : St → Nat → St) (l : List Nat) (st : St)
    (h : ∀ s j, P (f s j) = P s) : P (l.foldl f st) = P st := by
  induction l generalizing st with
  | nil => rfl
  | cons a l ih => rw [List.foldl_cons, ih, h]

theorem searchEvs_itemMutations (st : St) (i : Nat) (op : Bool) (src : Src) :
    searchEvs (itemMutations st i op src) = searchEvs st := by
  unfold searchEvs itemMutations
  cases op <;> simp [List.filter_append, isSearchEv]

theorem searchEvs_setItemStatePlain (st : St) (i : Nat) (op : Bool) (src : Src) :
    searchEvs (setItemStatePlain st i op src) = searchEvs st := by
  cases hw : wfItem st i with
  | false => rw [setItemStatePlain_not_wf st i op src hw]
  | true => rw [setItemStatePlain_wf st i op src hw]; exact searchEvs_itemMutations st i op src

theorem firstGroup_setItemStatePlain (st : St) (i : Nat) (op : Bool) (src : Src) :
    (setItemStatePlain st i op src).firstGroup = st.firstGroup := by
  cases hw : wfItem st i with
  | false => rw [setItemStatePlain_not_wf st i op src hw]
  | true => rw [setItemStatePlain_wf st i op src hw]; rfl

theorem searchEvs_closeStale (st : St) (q : List Char) :
    searchEvs (closeStale st q) = searchEvs st := by
  unfold closeStale
  apply foldl_pres
  intro s j
  cases hg : s.items.get? j with
  | none => simp only [hg]
  | some it =>
    simp only [hg]
    by_cases hc : j ∈ s.searchOpened && !itemMatchesQuery it q && isItemOpen s j
    · rw [if_pos hc, searchEvs_setItemStatePlain]
    · rw [if_neg hc]

theorem firstGroup_closeStale (st : St) (q : List Char) :
    (closeStale st q).firstGroup = st.firstGroup := by
  unfold closeStale
  apply foldl_pres
  intro s j
  cases hg : s.items.get? j with
  | none => simp only [hg]
  | some it =>
    simp only [hg]
    by_cases hc : j ∈ s.searchOpened && !itemMatchesQuery it q && isItemOpen s j
    · rw [if_pos hc, firstGroup_setItemStatePlain]
    · rw [if_neg hc]

theorem searchEvs_openMatching (st : St) (q : List Char) :
    searchEvs (openMatching st q) = searchEvs st := by
  unfold openMatching
  apply foldl_pres
  intro s j
  cases hg : s.items.get? j with
  | none => simp only [hg]
  | some it =>
    simp only [hg]
    by_cases hc : elementContainsText (it.title.map TitleSt.text) q ||
        elementContainsText (it.content.map ContentSt.text) q
    · rw [if_pos hc, searchEvs_setItemStatePlain]
      rfl
    · rw [if_neg hc]

theorem firstGroup_openMatching (st : St) (q : List Char) :
    (openMatching st q).firstGroup = st.firstGroup := by
  unfold openMatching
  apply foldl_pres
  intro s j
  cases hg : s.items.get? j with
  | none => simp only [hg]
  | some it =>
    simp only [hg]
    by_cases hc : elementContainsText (it.title.map TitleSt.text) q ||
        elementContainsText (it.content.map ContentSt.text) q
    · rw [if_pos hc, firstGroup_setItemStatePlain]
    · rw [if_neg hc]

theorem events_updateMatchCounter (st : St) :
    (updateMatchCounter st).events = st.events := by
  unfold updateMatchCounter
  cases st.counter <;> rfl

theorem firstGroup_updateMatchCounter (st : St) :
    (updateMatchCounter st).firstGroup = st.firstGroup := by
  unfold updateMatchCounter
  cases st.counter <;> rfl

theorem events_navigateToMatch (st : St) (idx : Int) :
    (navigateToMatch st idx).events = st.events := by
  unfold navigateToMatch
  by_cases hm : st.marks.length = 0
  · rw [if_pos hm, events_updateMatchCounter]
  · rw [if_neg hm, events_updateMatchCounter]

theorem firstGroup_navigateToMatch (st : St) (idx : Int) :
    (navigateToMatch st idx).firstGroup = st.firstGroup := by
  unfold navigateToMatch
  by_cases hm : st.marks.length = 0
  · rw [if_pos hm, firstGroup_updateMatchCounter]
  · rw [if_neg hm, firstGroup_updateMatchCounter]

theorem searchEvs_psCore (st : St) (q : String) :
    searchEvs (psCore st q) = searchEvs st := by
  unfold psCore
  by_cases hm :
      ({ openMatching (closeStale (clearAllHighlights st) (normalizeText q.data))
          (normalizeText q.data) with
        marks := collectMarks
          (openMatching (closeStale (clearAllHighlights st) (normalizeText q.data))
            (normalizeText q.data)).items } : St).marks.length > 0
  · rw [if_pos hm]
    unfold searchEvs
    rw [events_navigateToMatch]
    have h1 := searchEvs_openMatching (closeStale (clearAllHighlights st)
      (normalizeText q.data)) (normalizeText q.data)
    have h2 := searchEvs_closeStale (clearAllHighlights st) (normalizeText q.data)
    unfold searchEvs at h1 h2
    simp only [updateEmptyState]
    rw [h1, h2]
    rfl
  · rw [if_neg hm]
    unfold searchEvs
    have h1 := searchEvs_openMatching (closeStale (clearAllHighlights st)
      (normalizeText q.data)) (normalizeText q.data)
    have h2 := searchEvs_closeStale (clearAllHighlights st) (normalizeText q.data)
    unfold searchEvs at h1 h2
    simp only [updateEmptyState]
    rw [h1, h2]
    rfl

theorem firstGroup_psCore (st : St) (q : String) :
    (psCore st q).firstGroup = st.firstGroup := by
  unfold psCore
  by_cases hm :
      ({ openMatching (closeStale (clearAllHighlights st) (normalizeText q.data))
          (normalizeText q.data) with
        marks := collectMarks
          (openMatching (closeStale (clearAllHighlights st) (normalizeText q.data))
            (normalizeText q.data)).items } : St).marks.length > 0
  · rw [if_pos hm, firstGroup_navigateToMatch]
    simp only [updateEmptyState]
    rw [show ∀ s : St, ({ s with marks := collectMarks s.items } : St).firstGroup = s.firstGroup
      from fun _ => rfl]
    rw [firstGroup_openMatching, firstGroup_closeStale]
    rfl
  · rw [if_neg hm]
    simp only [updateEmptyState]
    rw [show ∀ s : St, ({ s with marks := collectMarks s.items } : St).firstGroup = s.firstGroup
      from fun _ => rfl]
    rw [firstGroup_openMatching, firstGroup_closeStale]
    rfl

theorem marks_dispatchSearch (s : St) (q : String) :
    (dispatchSearch s q).marks = s.marks := by
  unfold dispatchSearch
  cases s.firstGroup <;> rfl

/-- Claim C10.  On a query with non-empty normalization, `performSearch`
dispatches exactly one bubbling `cur-faq:search` event, from the first
group element found in the document, carrying the raw query text and the
final match count; when the document contains no group element, no
search event is dispatched at all. -/
theorem performSearch_event_spec (st : St) (q : String)
    (h : ¬normalizeText q.data = []) :
    (∀ g, st.firstGroup = some g →
      searchEvs (performSearch st q) =
        searchEvs st ++ [Ev.searchEv g q (performSearch st q).marks.length true]) ∧
    (st.firstGroup = none → searchEvs (performSearch st q) = searchEvs st) := by
  rw [performSearch_nonempty_eq st q h]
  have hs := searchEvs_psCore st q
  unfold searchEvs at hs
  constructor
  · intro g hg
    have hfg : (psCore st q).firstGroup = some g := by rw [firstGroup_psCore, hg]
    unfold dispatchSearch
    rw [hfg]
    unfold searchEvs
    simp [List.filter_append, hs, isSearchEv, List.filter_cons, List.filter_nil]
  · intro hg
    have hfg : (psCore st q).firstGroup = none := by rw [firstGroup_psCore, hg]
    unfold dispatchSearch
    rw [hfg]
    unfold searchEvs
    exact hs

/-- An itemless document whose first group element is group 7. -/
def stWithGroup : St :=
  { items := [], marks := [], currentIndex := -1, searchOpened := []
    emptyDisplay := none, counter := none, firstGroup := some 7
    styleEl := true, flagInit := true, instOwned := true, events := [] }

/-- An itemless document containing no group element. -/
def stNoGroup : St :=
  { items := [], marks := [], currentIndex := -1, searchOpened := []
    emptyDisplay := none, counter := none, firstGroup := none
    styleEl := true, flagInit := true, instOwned := true, events := [] }

theorem performSearch_event_spec_witness :
    searchEvs (performSearch stWithGroup "x") =
        searchEvs stWithGroup ++
          [Ev.searchEv 7 "x" (performSearch stWithGroup "x").marks.length true] ∧
      searchEvs (performSearch stNoGroup "x") = searchEvs stNoGroup :=
  ⟨(performSearch_event_spec stWithGroup "x" (by decide)).1 7 rfl,
    (performSearch_event_spec stNoGroup "x" (by decide)).2 rfl⟩

-- ---------------------------------------------------------------------------
-- Claim C2: destroy after init
-- ---------------------------------------------------------------------------

/-- Embeds `destroy` unconditionally removes the style element, the runtime
attributes and the hidden attribute, and clears the globals. -/
theorem destroy_resets (s : St) :
    (destroy s).styleEl = false ∧
      (destroy s).flagInit = false ∧
      (destroy s).instOwned = false ∧
      (∀ i, itemOpenMarker (destroy s) i = none) ∧
      (∀ i, itemSearchMarker (destroy s) i = none) ∧
      (∀ i, ariaExpandedOf (destroy s) i = none) ∧
      (∀ i, ariaControlsOf (destroy s) i = none) ∧
      (∀ i, contentHiddenOf (destroy s) i ≠ some true) := by
  have hitems : (destroy s).items =
      (s.items.map clearHighlightsItem).map destroyResetItem := rfl
  refine ⟨rfl, rfl, rfl, ?_, ?_, ?_, ?_, ?_⟩
  · intro i
    unfold itemOpenMarker
    rw [hitems, List.get?_map, List.get?_map]
    cases s.items.get? i with
    | none => rfl
    | some it => rfl
  · intro i
    unfold itemSearchMarker
    rw [hitems, List.get?_map, List.get?_map]
    cases s.items.get? i with
    | none => rfl
    | some it => rfl
  · intro i
    unfold ariaExpandedOf
    rw [hitems, List.get?_map, List.get?_map]
    cases s.items.get? i with
    | none => rfl
    | some it =>
      obtain ⟨o, obs, ac, tr, ti, co, io, ic⟩ := it
      cases tr <;> rfl
  · intro i
    unfold ariaControlsOf
    rw [hitems, List.get?_map, List.get?_map]
    cases s.items.get? i with
    | none => rfl
    | some it =>
      obtain ⟨o, obs, ac, tr, ti, co, io, ic⟩ := it
      cases tr <;> rfl
  · intro i
    unfold contentHiddenOf
    rw [hitems, List.get?_map, List.get?_map]
    cases s.items.get? i with
    | none => simp
    | some it =>
      obtain ⟨o, obs, ac, tr, ti, co, io, ic⟩ := it
      cases co <;> simp [destroyResetItem, clearHighlightsItem]

/-- Claim C2 (amended).  After `initFaq` immediately followed by
`destroy()`: the injected style element is gone, the runtime attributes
(`data-faq-open`, `data-opened-by-search`, `aria-expanded`,
`aria-controls`) are removed from all items and triggers, no content
element carries the hidden attribute, and the global instance flag and
reference are cleared.  The document is however *not* bit-for-bit the
pre-init DOM in general: `role="button"` and `tabindex="0"` added to
non-button triggers, the generated content-element id, and the icon
visibility classes added during init are never removed (see the
counterexample). -/
theorem initFaq_destroy_reset (groups : List Grp) (st : St) :
    (destroy (initFaq groups st)).styleEl = false ∧
      (destroy (initFaq groups st)).flagInit = false ∧
      (destroy (initFaq groups st)).instOwned = false ∧
      (∀ i, itemOpenMarker (destroy (initFaq groups st)) i = none) ∧
      (∀ i, itemSearchMarker (destroy (initFaq groups st)) i = none) ∧
      (∀ i, ariaExpandedOf (destroy (initFaq groups st)) i = none) ∧
      (∀ i, ariaControlsOf (destroy (initFaq groups st)) i = none) ∧
      (∀ i, contentHiddenOf (destroy (initFaq groups st)) i ≠ some true) :=
  destroy_resets (initFaq groups st)

/-- A pristine pre-init item: non-button trigger without `role`,
visible content, no runtime attributes. -/
def itemFresh : ItemSt :=
  { dataOpen := none, dataOpenedBySearch := none, activeCls := false
    trigger := some { tag := "DIV", ariaExpanded := none, ariaControls := none,
                      role := none, tabindex := none }
    title := some { text := "Question", marks := 0 }
    content := some { hidden := false, visible := true, styleHeight := "", id := none,
                      text := "Answer", marks := 0 }
    iconOpen := none, iconClose := none }

/-- A pristine pre-init document around `itemFresh`. -/
def stFresh : St :=
  { items := [itemFresh], marks := [], currentIndex := -1, searchOpened := []
    emptyDisplay := none, counter := none, firstGroup := some 0
    styleEl := false, flagInit := false, instOwned := false, events := [] }

/-- Claim C2, counterexample.  `initFaq` followed by `destroy()` does not
leave the document bit-for-bit as before init: the trigger had no `role`
attribute, and after init+destroy it still carries `role="button"`
(destroy never removes the accessibility attributes `setupAria`
added). -/
theorem destroy_not_bit_for_bit :
    roleOf stFresh 0 = none ∧
      roleOf (destroy (initFaq [] stFresh)) 0 = some "button" := by
  exact ⟨rfl, by decide⟩

theorem initFaq_destroy_reset_witness :
    (destroy (initFaq [] stNoGroup)).styleEl = false ∧
      itemOpenMarker (destroy (initFaq [] stNoGroup)) 0 = none :=
  ⟨(initFaq_destroy_reset [] stNoGroup).1,
    ((initFaq_destroy_reset [] stNoGroup).2.2.2.1) 0⟩

-- ---------------------------------------------------------------------------
-- Claim C7: initial state after initFaq
-- ---------------------------------------------------------------------------

/-- Opening one target leaves any other item that reads as closed
untouched (the accordion loop skips closed items, and the mutation block
only touches the target). -/
theorem setItemState_pres_closed (st : St) (t i : Nat) (src : Src) (g : Grp)
    (v : ItemSt) (hne : t ≠ i) (hget : st.items.get? i = some v)
    (hcl : isItemOpenIt v = false) :
    (setItemState st t true src (some g)).items.get? i = some v := by
  cases hw : wfItem st t with
  | false => rw [setItemState_not_wf st t true src (some g) hw]; exact hget
  | true =>
    rw [setItemState_wf_some st t true src g hw]
    rw [itemMutations_get_ne _ t i true src (fun hc => hne hc.symm)]
    by_cases hacc : true && g.accordion
    · rw [if_pos hacc]
      exact closeSiblings_pres_closed g.memberIds st t i src v hget hcl
    · rw [if_neg hacc]
      exact hget

theorem applyDefaultOpen_nil (st : St) : applyDefaultOpen st [] = st := rfl

theorem applyDefaultOpen_cons (st : St) (g : Grp) (gs : List Grp) :
    applyDefaultOpen st (g :: gs) =
      applyDefaultOpen
        (match defaultTarget g with
         | some t => setItemState st t true Src.user (some g)
         | none => st)
        gs := rfl

/-- The default-open pass leaves a closed item untouched as long as it
is never a group's default-open target. -/
theorem applyDefaultOpen_pres (groups : List Grp) (st : St) (i : Nat) (v : ItemSt)
    (hget : st.items.get? i = some v) (hcl : isItemOpenIt v = false)
    (hids : ∀ g ∈ groups, defaultTarget g ≠ some i) :
    (applyDefaultOpen st groups).items.get? i = some v := by
  induction groups generalizing st with
  | nil => exact hget
  | cons g gs ih =>
    rw [applyDefaultOpen_cons]
    cases hdt : defaultTarget g with
    | none =>
      exact ih st hget (fun g' hg' => hids g' (by simp [hg']))
    | some t =>
      have hne : t ≠ i := by
        intro hc
        exact hids g (by simp) (by rw [hdt, hc])
      exact ih _ (setItemState_pres_closed st t i Src.user g v hne hget hcl)
        (fun g' hg' => hids g' (by simp [hg']))

theorem setupAriaItem_fields (v : ItemSt) :
    (setupAriaItem v).dataOpen = v.dataOpen ∧
      (setupAriaItem v).content.map ContentSt.hidden = v.content.map ContentSt.hidden ∧
      (setupAriaItem v).trigger.map TriggerSt.ariaExpanded =
        v.trigger.map TriggerSt.ariaExpanded ∧
      (setupAriaItem v).iconOpen = v.iconOpen ∧
      (setupAriaItem v).iconClose = v.iconClose := by
  obtain ⟨o, obs, ac, tr, ti, co, io, ic⟩ := v
  cases tr with
  | none => cases co <;> exact ⟨rfl, rfl, rfl, rfl, rfl⟩
  | some tr =>
    cases co with
    | none => exact ⟨rfl, rfl, rfl, rfl, rfl⟩
    | some c =>
      refine ⟨rfl, ?_, ?_, rfl, rfl⟩ <;>
        · simp only [setupAriaItem, ensureId]
          cases c.id <;> by_cases hb : tr.tag ≠ "BUTTON" <;>
            by_cases htx : tr.tabindex.isNone <;>
            simp [hb, htx]

theorem initClosed_facts (it : ItemSt) (hc : it.content.isSome = true) :
    (initClosed it).dataOpen = some "false" ∧
      (initClosed it).content.map ContentSt.hidden = some true ∧
      (initClosed it).trigger.map TriggerSt.ariaExpanded =
        it.trigger.map (fun _ => some "false") ∧
      isItemOpenIt (initClosed it) = false ∧
      (initClosed it).iconOpen =
        it.iconOpen.map (fun _ => { visCls := false, hidCls := true }) ∧
      (initClosed it).iconClose =
        it.iconClose.map (fun _ => { visCls := true, hidCls := false }) := by
  obtain ⟨o, obs, ac, tr, ti, co, io, ic⟩ := it
  cases co with
  | none => exact absurd hc (by simp)
  | some c =>
    refine ⟨?_, ?_, ?_, ?_, ?_, ?_⟩ <;>
      cases tr <;>
      simp [initClosed, isItemOpenIt, isElementVisible, setIconVisibility]

theorem initFaq_items (groups : List Grp) (st : St) (hflag : st.flagInit = false) :
    (initFaq groups st).items =
      (applyDefaultOpen
        { st with flagInit := true, styleEl := true, items := st.items.map initClosed }
        groups).items.map setupAriaItem := by
  unfold initFaq
  rw [if_neg (by simp [hflag])]
  rfl

/-- Claim C7 (amended).  Immediately after `initFaq` (no other operations
in between), every parsed item that has a content element and is not the
target of any group's `default-open` setting is closed: open marker
`"false"`, content hidden, icon-close visible, icon-open hidden, and
`aria-expanded = "false"` on its trigger (when the sub-elements exist).
A `default-open` target is opened by init, so the claim as stated fails
for it (see the counterexample). -/
theorem initFaq_initial_closed (groups : List Grp) (st : St) (i : Nat) (it : ItemSt)
    (hflag : st.flagInit = false)
    (hget : st.items.get? i = some it)
    (hc : it.content.isSome = true)
    (hids : ∀ g ∈ groups, defaultTarget g ≠ some i) :
    itemOpenMarker (initFaq groups st) i = some "false" ∧
      contentHiddenOf (initFaq groups st) i = some true ∧
      (it.trigger.isSome = true → ariaExpandedOf (initFaq groups st) i = some "false") ∧
      (it.iconClose.isSome = true →
        iconCloseClsOf (initFaq groups st) i = some (true, false)) ∧
      (it.iconOpen.isSome = true →
        iconOpenClsOf (initFaq groups st) i = some (false, true)) := by
  obtain ⟨hdo, hhid, haria, hcl, hio, hic⟩ := initClosed_facts it hc
  have hst3 : ({ st with
      flagInit := true
      styleEl := true
      items := st.items.map initClosed } : St).items.get? i = some (initClosed it) := by
    rw [List.get?_map, hget]
    rfl
  have hst4 : (applyDefaultOpen
      { st with flagInit := true, styleEl := true, items := st.items.map initClosed }
      groups).items.get? i = some (initClosed it) :=
    applyDefaultOpen_pres groups _ i (initClosed it) hst3 hcl hids
  have hfin : (initFaq groups st).items.get? i = some (setupAriaItem (initClosed it)) := by
    rw [initFaq_items groups st hflag, List.get?_map, hst4]
    rfl
  obtain ⟨sdo, shid, saria, sio, sic⟩ := setupAriaItem_fields (initClosed it)
  refine ⟨?_, ?_, ?_, ?_, ?_⟩
  · unfold itemOpenMarker
    rw [hfin]
    simp only []
    rw [sdo, hdo]
  · unfold contentHiddenOf
    rw [hfin]
    simp only []
    rw [shid, hhid]
  · intro htr
    unfold ariaExpandedOf
    rw [hfin]
    simp only []
    rw [saria, haria]
    cases htr2 : it.trigger with
    | none => rw [htr2] at htr; exact absurd htr (by simp)
    | some tr => rfl
  · intro hicc
    unfold iconCloseClsOf
    rw [hfin]
    simp only []
    rw [sic, hic]
    cases hicc2 : it.iconClose with
    | none => rw [hicc2] at hicc; exact absurd hicc (by simp)
    | some ic => rfl
  · intro hioc
    unfold iconOpenClsOf
    rw [hfin]
    simp only []
    rw [sio, hio]
    cases hioc2 : it.iconOpen with
    | none => rw [hioc2] at hioc; exact absurd hioc (by simp)
    | some io => rfl

/-- A one-item group with `default-open="0"`. -/
def grpDefaultOpen : Grp :=
  { memberIds := [0], accordion := false, defaultOpen := some 0 }

/-- Claim C7, counterexample.  With `default-open="0"` on the group,
item 0's open marker is `"true"` immediately after `initFaq`, not
`"false"` as the claim requires of every parsed item. -/
theorem initFaq_default_open_not_closed :
    itemOpenMarker (initFaq [grpDefaultOpen] stFresh) 0 = some "true" := by
  decide

theorem initFaq_initial_closed_witness :
    itemOpenMarker (initFaq [] stFresh) 0 = some "false" ∧
      contentHiddenOf (initFaq [] stFresh) 0 = some true ∧
      ariaExpandedOf (initFaq [] stFresh) 0 = some "false" := by
  obtain ⟨h1, h2, h3, h4, h5⟩ :=
    initFaq_initial_closed [] stFresh 0 itemFresh rfl rfl rfl (by simp)
  exact ⟨h1, h2, h3 rfl⟩

end Faq
